import Mathlib

/-!
# The uGFX list widget (`src/gwin/list.c`)

A shallow embedding of the list widget: the item record, the widget object, the
item queue, and the operations `sendListEvent`, `gwinListDefaultDraw`,
`MouseDown`, `_destroy`, `gwinListCreate`, `gwinListAddItem` and
`gwinListGetSelected`.

Conventions of the embedding.

* A `uint16_t` is a natural number reduced modulo `65536` at every store.
* `int` is taken to be at least 32 bits wide, so the promoted arithmetic on
  16-bit operands never overflows; `int` counters that only count queue items
  (`cnt`, the index of `gwinListGetSelected`) are mathematical integers.
* `coord_t` is a 16-bit signed integer; an `int` passed to a `coord_t` parameter is
  reduced into `-32768 .. 32767`.
* Pointers are natural numbers, `0` is the null pointer.
* Calls into collaborators that live outside `list.c` (allocator, drawing,
  redraw, event delivery, generic teardown) are recorded, in program order, in
  a list of `Call`s.
-/

namespace UGfx

/-! ## Machine integers and flag words -/

/-- Conversion of a C `int` value to `uint16_t`. -/
def toU16 (n : Int) : Nat := (n % 65536).toNat

/-- Conversion of a C `int` value to `coord_t`, the 16-bit signed coordinate type of the
toolkit (declared in a header that is not part of the sources at hand): the value is
reduced modulo `65536` into `-32768 .. 32767`. -/
def toCoord (n : Int) : Int := (n + 32768) % 65536 - 32768

/-- The macro `GLIST_FLG_SELECTED`, `(GWIN_FIRST_CONTROL_FLAG << 2)`.  The constant
`GWIN_FIRST_CONTROL_FLAG` is declared in `gwin/class_gwin.h`, which is not part of
the sources at hand, so it is an argument. -/
def GLIST_FLG_SELECTED (GWIN_FIRST_CONTROL_FLAG : Nat) : Nat :=
  GWIN_FIRST_CONTROL_FLAG <<< 2

/-- The constant `LISTITEM_ALLOCEDTEXT` of `struct ListItem`. -/
def LISTITEM_ALLOCEDTEXT : Nat := 0x0001

/-- The constant `LISTITEM_SELECTED` of `struct ListItem`. -/
def LISTITEM_SELECTED : Nat := 0x0002

/-- The C condition `flags & mask` (true when the result is non-zero). -/
def flagTest (flags mask : Nat) : Bool := (flags &&& mask) != 0

/-- The C statement `flags |= mask` on a `uint16_t` flag word. -/
def flagSet (flags mask : Nat) : Nat := (flags ||| mask) % 65536

/-- The C statement `flags &= ~mask` on a `uint16_t` flag word: the bits of `mask`
are removed from `flags` (`flags ^^^ (flags &&& mask)` is `flags & ~mask`), and the
result is stored in 16 bits. -/
def flagClear (flags mask : Nat) : Nat := (flags ^^^ (flags &&& mask)) % 65536

/-! ## Memory and C strings -/

/-- Byte-addressed memory; address `a` is valid when `a < m.length`. -/
abbrev Mem := List Nat

/-- The NUL-terminated string that starts at address `p`, without its terminator;
`none` when no terminator is found before the end of memory. -/
def cstr (m : Mem) (p : Nat) : Option (List Nat) :=
  if 0 ∈ m.drop p then some ((m.drop p).takeWhile (fun b => b != 0)) else none

/-- The library function `strlen`. -/
def strlen (m : Mem) (p : Nat) : Option Nat := (cstr m p).map List.length

/-- Store the bytes `bs` at addresses `dst, dst + 1, ...`; `none` when the range is not
inside memory. -/
def storeBytes (m : Mem) (dst : Nat) (bs : List Nat) : Option Mem :=
  if dst + bs.length ≤ m.length then some (m.take dst ++ bs ++ m.drop (dst + bs.length))
  else none

/-- The library function `strcpy`: the string at `src` is copied, terminator included,
to `dst`. -/
def strcpy (m : Mem) (dst src : Nat) : Option Mem :=
  match cstr m src with
  | none => none
  | some s => storeBytes m dst (s ++ [0])

/-! ## Data model -/

/-- The record `struct ListItem`.  `addr` is the address of the record, which is also
the address of its first member `q_item` and hence the queue node pointer. -/
structure ListItem where
  addr : Nat
  flags : Nat
  param : Nat
  text : Nat
deriving DecidableEq, Repr

/-- Modelled from the spec: the Async Item Queue (`gfxQueueASync`, whose code is not
part of the sources at hand) is a FIFO singly-linked queue, with insertion at the
tail and traversal front-to-back; it is the list of its items, head first. -/
abbrev gfxQueueASync := List ListItem

/-- Modelled from the spec: `gfxQueueASyncInit` makes the queue empty. -/
def gfxQueueASyncInit : gfxQueueASync := []

/-- Modelled from the spec: `gfxQueueASyncPut` appends an item at the tail. -/
def gfxQueueASyncPut (q : gfxQueueASync) (item : ListItem) : gfxQueueASync := q ++ [item]

/-- Modelled from the spec: `gfxQueueASyncGet` removes the item at the head and returns
it, or returns null on an empty queue. -/
def gfxQueueASyncGet : gfxQueueASync → Option (ListItem × gfxQueueASync)
  | [] => none
  | qi :: rest => some (qi, rest)

/-- The fields of `GListObject` (and of the `GWidgetObject` and `GWindowObject` it
starts with) that `list.c` uses.  `self` is the address of the object, that is,
the handle `gh`. -/
structure GListObject where
  self : Nat
  vmt : Nat
  x : Int
  y : Int
  width : Int
  height : Int
  visible : Bool
  cnt : Int
  list_head : gfxQueueASync
deriving DecidableEq, Repr

/-- The two colours `list.c` draws with. -/
inductive Color where
  | Black
  | White
deriving DecidableEq, Repr

/-- The event kind tags; `list.c` uses `GEVENT_GWIN_LIST` only. -/
inductive GEventType where
  | GEVENT_GWIN_LIST
  | GEVENT_OTHER (code : Nat)
deriving DecidableEq, Repr

/-- The event record `GEventGWinList` as filled in by `sendListEvent`. -/
structure GEventGWinList where
  type : GEventType
  list : Nat
  item : Int
deriving DecidableEq, Repr

/-- The calls `list.c` makes into its collaborators.  The arguments that are the same in
every call (the default font and `justifyLeft` of `gdispFillStringBox`) are left out. -/
inductive Call where
  | gfxAlloc (sz : Nat)
  | gfxFree (p : Nat)
  | strcpy (dst src : Nat)
  | gdispDrawBox (x y cx cy : Int) (color : Color)
  | gdispFillStringBox (x y cx cy : Int) (str : Nat) (color bgcolor : Color)
  | _gwidgetRedraw (gh : Nat)
  | geventSendEvent (psl : Nat) (pe : GEventGWinList)
  | _gwidgetDestroy (gh : Nat)
  | gwinSetVisible (gh : Nat) (visible : Bool)
deriving DecidableEq, Repr

/-- Modelled from the spec: a listener registered for widget-sourced events, as seen
through `geventGetSourceListener` and `geventGetEventBuffer` (not part of the sources
at hand).  `psl` is the listener pointer; `hasBuffer` tells whether
`geventGetEventBuffer` hands out a free event buffer. -/
structure GSourceListener where
  psl : Nat
  hasBuffer : Bool
deriving DecidableEq, Repr

/-! ## The operations of `list.c` -/

/-- The function `sendListEvent`: walk the registered listeners; a listener without a
free buffer is skipped (`continue`), every other one gets the filled-in event. -/
def sendListEvent (listeners : List GSourceListener) (gw : GListObject) (item : Int) :
    List Call :=
  match listeners with
  | [] => []
  | l :: rest =>
    if !l.hasBuffer then sendListEvent rest gw item
    else
      Call.geventSendEvent l.psl
          { type := GEventType.GEVENT_GWIN_LIST, list := gw.self, item := item }
        :: sendListEvent rest gw item

/-- The loop of `gwinListDefaultDraw`; `i` is the `uint16_t` row offset.  The `int`
expressions passed to `gdispFillStringBox` are converted to the `coord_t` of its
parameters. -/
def drawLoop (mask : Nat) (gw : GListObject) (fheight : Nat) :
    List ListItem → Nat → List Call
  | [], _ => []
  | li :: rest, i =>
    (if flagTest li.flags mask then
        Call.gdispFillStringBox (toCoord (gw.x + 3)) (toCoord (gw.y + 3 + i))
          (toCoord (gw.width - 6)) (toCoord fheight) li.text Color.White Color.Black
      else
        Call.gdispFillStringBox (toCoord (gw.x + 3)) (toCoord (gw.y + 3 + i))
          (toCoord (gw.width - 6)) (toCoord fheight) li.text Color.Black Color.White)
      :: drawLoop mask gw fheight rest ((i + fheight + 4) % 65536)

/-- The function `gwinListDefaultDraw`.  `fontHeight` is the value returned by
`gdispGetFontMetric(gwinGetDefaultFont(), fontHeight)`. -/
def gwinListDefaultDraw (GWIN_FIRST_CONTROL_FLAG : Nat) (fontHeight : Int)
    (gw : GListObject) : List Call :=
  let fheight := toU16 fontHeight
  Call.gdispDrawBox gw.x gw.y gw.width gw.height Color.Black
    :: drawLoop (GLIST_FLG_SELECTED GWIN_FIRST_CONTROL_FLAG) gw fheight gw.list_head 0

/-- The `uint16_t item_height` of `MouseDown`. -/
def item_height (fontHeight : Int) : Nat := toU16 (fontHeight + 2)

/-- The `uint16_t item_id` of `MouseDown`: `(y - gw->g.y) / item_height`, the division
being that of C (truncation towards zero). -/
def item_id (fontHeight gy y : Int) : Nat :=
  toU16 ((y - gy).tdiv (item_height fontHeight))

/-- The body of the loop of `MouseDown`, for the item `li` reached when the row counter
is `i`. -/
def selectItem (mask item_id i : Nat) (li : ListItem) : ListItem :=
  if item_id = i then { li with flags := flagSet li.flags mask }
  else { li with flags := flagClear li.flags mask }

/-- The loop of `MouseDown`; `i` is the `uint16_t` row counter. -/
def selectLoop (mask item_id : Nat) : List ListItem → Nat → List ListItem
  | [], _ => []
  | li :: rest, i => selectItem mask item_id i li :: selectLoop mask item_id rest ((i + 1) % 65536)

/-- The function `MouseDown`.  The result is `none` when `item_height` is zero (the
division is then undefined); otherwise it is the widget after the call and the calls
made. -/
def MouseDown (GWIN_FIRST_CONTROL_FLAG : Nat) (fontHeight : Int)
    (listeners : List GSourceListener) (gw : GListObject) (x y : Int) :
    Option (GListObject × List Call) :=
  let _ := x
  if item_height fontHeight = 0 then none
  else
    let id := item_id fontHeight gw.y y
    let gw1 : GListObject :=
      { gw with list_head :=
          selectLoop (GLIST_FLG_SELECTED GWIN_FIRST_CONTROL_FLAG) id gw.list_head 0 }
    some (gw1, Call._gwidgetRedraw gw1.self :: sendListEvent listeners gw1 id)

/-- The loop of `_destroy`: take the head item off the queue and free it, until the
queue is empty.  The result is the queue left and the calls made. -/
def destroyLoop : gfxQueueASync → gfxQueueASync × List Call
  | [] => ([], [])
  | qi :: rest =>
    let r := destroyLoop rest
    (r.1, Call.gfxFree qi.addr :: r.2)

/-- The function `_destroy`: the widget as it is when `_gwidgetDestroy` is called, and
the calls made. -/
def _destroy (gh : GListObject) : GListObject × List Call :=
  let r := destroyLoop gh.list_head
  ({ gh with list_head := r.1 }, r.2 ++ [Call._gwidgetDestroy gh.self])

/-- Modelled from the spec: `_gwidgetCreate` (not part of the sources at hand) is the
generic creation path, "bound to the List virtual-method table"; it yields a null
handle when the generic allocation fails.  `base` is the object the generic creation
produces (`none` on failure); its table pointer is the table passed in. -/
def _gwidgetCreate (base : Option GListObject) (vmt : Nat) : Option GListObject :=
  base.map (fun w => { w with vmt := vmt })

/-- Modelled from the spec: `gwinSetVisible` (not part of the sources at hand) applies
the visibility requested. -/
def gwinSetVisible (gh : GListObject) (visible : Bool) : GListObject :=
  { gh with visible := visible }

/-- The function `gwinListCreate`.  `listVMT` is the address of the static table
`listVMT`, and `pInit_show` the field `pInit->g.show`. -/
def gwinListCreate (listVMT : Nat) (base : Option GListObject) (pInit_show : Bool) :
    Option GListObject × List Call :=
  match _gwidgetCreate base listVMT with
  | none => (none, [])
  | some widget =>
    let w1 : GListObject := { widget with list_head := gfxQueueASyncInit }
    let w2 : GListObject := { w1 with cnt := 0 }
    let w3 : GListObject := gwinSetVisible w2 pInit_show
    (some w3, [Call.gwinSetVisible w3.self pInit_show])

/-- What a call of `gwinListAddItem` yields: the value returned, the widget and the
memory after the call, and the calls made. -/
structure AddItemResult where
  ret : Int
  gh : GListObject
  mem : Mem
  calls : List Call
deriving DecidableEq, Repr

/-- The function `gwinListAddItem`.  `sizeofListItem` is `sizeof(ListItem)`, and
`gfxAlloc sz` the pointer the allocator returns for a request of `sz` bytes (`0` when
it fails).  The result is `none` when `strlen` or `strcpy` runs off memory. -/
def gwinListAddItem (sizeofListItem : Nat) (gfxAlloc : Nat → Nat) (m : Mem)
    (gh : GListObject) (item_name : Nat) (useAlloc : Bool) : Option AddItemResult :=
  let szOpt : Option Nat :=
    if useAlloc then (strlen m item_name).map (fun n => sizeofListItem + n + 1)
    else some sizeofListItem
  match szOpt with
  | none => none
  | some sz =>
    let newItem := gfxAlloc sz
    if newItem = 0 then
      some { ret := -1, gh := gh, mem := m, calls := [Call.gfxAlloc sz] }
    else
      let copied : Option (Mem × Nat × List Call) :=
        if useAlloc then
          (strcpy m (newItem + sizeofListItem) item_name).map
            (fun m1 => (m1, newItem + sizeofListItem,
              [Call.strcpy (newItem + sizeofListItem) item_name]))
        else some (m, item_name, [])
      match copied with
      | none => none
      | some (m1, name1, cs) =>
        let item : ListItem := { addr := newItem, flags := 0, param := 0, text := name1 }
        let gh1 : GListObject :=
          { gh with list_head := gfxQueueASyncPut gh.list_head item }
        let gh2 : GListObject := { gh1 with cnt := gh1.cnt + 1 }
        some { ret := gh2.cnt - 1, gh := gh2, mem := m1, calls := Call.gfxAlloc sz :: cs }

/-- The loop of `gwinListGetSelected`; `i` is the `int` counter. -/
def getSelectedLoop (mask : Nat) : List ListItem → Int → Int
  | [], _ => -1
  | li :: rest, i => if flagTest li.flags mask then i else getSelectedLoop mask rest (i + 1)

/-- The function `gwinListGetSelected`: the value returned, and the object after the
call. -/
def gwinListGetSelected (GWIN_FIRST_CONTROL_FLAG listVMT : Nat) (gh : GListObject) :
    Int × GListObject :=
  if gh.vmt ≠ listVMT then (-1, gh)
  else (getSelectedLoop (GLIST_FLG_SELECTED GWIN_FIRST_CONTROL_FLAG) gh.list_head 0, gh)

/-! ## The driver capability descriptors and the generic fill -/

/-- The pixel formats the two driver configurations declare (`GDISP_PIXELFORMAT`). -/
inductive PixelFormat where
  | GDISP_PIXELFORMAT_RGB565
  | GDISP_PIXELFORMAT_MONO
deriving DecidableEq, Repr

/-- The capability descriptor of a driver: the macros of its `gdisp_lld_config.h`. -/
structure CapabilityDescriptor where
  GDISP_HARDWARE_CLEARS : Bool
  GDISP_HARDWARE_FILLS : Bool
  GDISP_HARDWARE_BITFILLS : Bool
  GDISP_HARDWARE_SCROLL : Bool
  GDISP_HARDWARE_PIXELREAD : Bool
  GDISP_HARDWARE_CONTROL : Bool
  GDISP_PIXELFORMAT : PixelFormat
deriving DecidableEq, Repr

/-- The descriptor of `drivers/gdisp/ILI9325/gdisp_lld_config.h`. -/
def ILI9325 : CapabilityDescriptor :=
  { GDISP_HARDWARE_CLEARS := true, GDISP_HARDWARE_FILLS := true,
    GDISP_HARDWARE_BITFILLS := false, GDISP_HARDWARE_SCROLL := false,
    GDISP_HARDWARE_PIXELREAD := true, GDISP_HARDWARE_CONTROL := true,
    GDISP_PIXELFORMAT := PixelFormat.GDISP_PIXELFORMAT_RGB565 }

/-- The descriptor of `drivers/gdisp/SSD1306/gdisp_lld_config.h`. -/
def SSD1306 : CapabilityDescriptor :=
  { GDISP_HARDWARE_CLEARS := false, GDISP_HARDWARE_FILLS := true,
    GDISP_HARDWARE_BITFILLS := false, GDISP_HARDWARE_SCROLL := true,
    GDISP_HARDWARE_PIXELREAD := false, GDISP_HARDWARE_CONTROL := true,
    GDISP_PIXELFORMAT := PixelFormat.GDISP_PIXELFORMAT_MONO }

/-- Modelled from the spec: the display, as the native pixel value at each position.
The generic graphics layer and the driver code are not part of the sources at hand. -/
abbrev Frame := Int → Int → Nat

/-- Modelled from the spec: a display driver, with its capability descriptor and its
conversion of a colour in the canonical format to the native encoding of the driver
(deterministic, possibly lossy). -/
structure Driver where
  caps : CapabilityDescriptor
  convert : Nat → Nat

/-- Modelled from the spec: the pixel-write primitive, "which every driver must support
unconditionally": the pixel at `(x, y)` takes the colour. -/
def Driver.pixelWrite (d : Driver) (f : Frame) (x y : Int) (color : Nat) : Frame :=
  fun px py => if px = x ∧ py = y then d.convert color else f px py

/-- Modelled from the spec: the fill of a driver that supports fills in hardware: "every
targeted pixel set" to the colour; the rectangle starts at `(x, y)` and is `cx` wide and
`cy` high. -/
def Driver.hardwareFill (d : Driver) (f : Frame) (x y : Int) (cx cy : Nat) (color : Nat) :
    Frame :=
  fun px py =>
    if x ≤ px ∧ px < x + cx ∧ y ≤ py ∧ py < y + cy then d.convert color else f px py

/-- Modelled from the spec: one scan line of the emulated fill, "repeated single-pixel
... writes using the pixel-write primitive": the first `n` pixels of the line `y`. -/
def Driver.emulatedLine (d : Driver) (f : Frame) (x y : Int) (color : Nat) : Nat → Frame
  | 0 => f
  | n + 1 => d.pixelWrite (d.emulatedLine f x y color n) (x + n) y color

/-- Modelled from the spec: the emulated fill: the first `n` scan lines of the
rectangle, each of `cx` pixel writes. -/
def Driver.emulatedFill (d : Driver) (f : Frame) (x y : Int) (cx : Nat) (color : Nat) :
    Nat → Frame
  | 0 => f
  | n + 1 => d.emulatedLine (d.emulatedFill f x y cx color n) x (y + n) color cx

/-- Modelled from the spec: the fill-rect operation of the generic graphics layer: "if
the primitive is hardware-supported, forward the call verbatim to Display-Driver", and
"if unsupported, synthesize the primitive from a lower-level supported one". -/
def fillRect (d : Driver) (f : Frame) (x y : Int) (cx cy : Nat) (color : Nat) : Frame :=
  if d.caps.GDISP_HARDWARE_FILLS then d.hardwareFill f x y cx cy color
  else d.emulatedFill f x y cx color cy

/-! ## Notions used to state the properties -/

/-- The item carries the selected flag, as `gwinListDefaultDraw` and
`gwinListGetSelected` test it. -/
def isSelected (GWIN_FIRST_CONTROL_FLAG : Nat) (li : ListItem) : Bool :=
  flagTest li.flags (GLIST_FLG_SELECTED GWIN_FIRST_CONTROL_FLAG)

/-- The event `sendListEvent` fills in for the widget `gw` and the index `item`. -/
def listEvent (gw : GListObject) (item : Int) : GEventGWinList :=
  { type := GEventType.GEVENT_GWIN_LIST, list := gw.self, item := item }

/-- The body of the loop of `gwinListDefaultDraw`, for the item `li` reached when the row
offset is `i`. -/
def drawItem (mask : Nat) (gw : GListObject) (fheight i : Nat) (li : ListItem) : Call :=
  if flagTest li.flags mask then
    Call.gdispFillStringBox (toCoord (gw.x + 3)) (toCoord (gw.y + 3 + i))
      (toCoord (gw.width - 6)) (toCoord fheight) li.text Color.White Color.Black
  else
    Call.gdispFillStringBox (toCoord (gw.x + 3)) (toCoord (gw.y + 3 + i))
      (toCoord (gw.width - 6)) (toCoord fheight) li.text Color.Black Color.White

/-- Modelled from the spec: the rectangle `(x, y, cx, cy)` a call clears.  `gdispDrawBox`
is not part of the sources at hand; the spec says of the step in which
`gwinListDefaultDraw` calls it that the routine "clears the widget's rectangular area",
so the call clears the rectangle it is given.  No other call of `list.c` is a clear. -/
def Call.clearedArea : Call → Option (Int × Int × Int × Int)
  | Call.gdispDrawBox x y cx cy _ => some (x, y, cx, cy)
  | _ => none

/-- The call renders an item row: it is a call of `gdispFillStringBox`. -/
def Call.isRow : Call → Bool
  | Call.gdispFillStringBox _ _ _ _ _ _ _ => true
  | _ => false

/-- The arguments of one call of `gwinListAddItem`, with the allocator and the memory
as they are at the time of the call. -/
structure AddItemCall where
  gfxAlloc : Nat → Nat
  mem : Mem
  item_name : Nat
  useAlloc : Bool

/-- The call can run to its end with a successful allocation: with the copy flag the
text is a string in memory and its copy fits in memory at the place allocated, and
the allocator returns a non-null pointer. -/
def AddItemCall.succeeds (sizeofListItem : Nat) (c : AddItemCall) : Prop :=
  if c.useAlloc then
    ∃ s, cstr c.mem c.item_name = some s ∧
      c.gfxAlloc (sizeofListItem + s.length + 1) ≠ 0 ∧
      c.gfxAlloc (sizeofListItem + s.length + 1) + sizeofListItem + s.length + 1
        ≤ c.mem.length
  else c.gfxAlloc sizeofListItem ≠ 0

/-- The call runs up to the allocation and the allocation fails: with the copy flag the
text is a string in memory; the allocator returns the null pointer for the size asked. -/
def AddItemCall.fails (sizeofListItem : Nat) (c : AddItemCall) : Prop :=
  if c.useAlloc then
    ∃ s, cstr c.mem c.item_name = some s ∧ c.gfxAlloc (sizeofListItem + s.length + 1) = 0
  else c.gfxAlloc sizeofListItem = 0

/-- The item record a successful call of `gwinListAddItem` puts on the queue. -/
def AddItemCall.item (sizeofListItem : Nat) (c : AddItemCall) : ListItem :=
  if c.useAlloc then
    let newItem := c.gfxAlloc (sizeofListItem + ((strlen c.mem c.item_name).getD 0) + 1)
    { addr := newItem, flags := 0, param := 0, text := newItem + sizeofListItem }
  else
    { addr := c.gfxAlloc sizeofListItem, flags := 0, param := 0, text := c.item_name }

/-- A sequence of calls of `gwinListAddItem` on the widget `gh`: the values returned, in
order, and the widget at the end; `none` when one of the calls does not run to
completion. -/
def addItems (sizeofListItem : Nat) : List AddItemCall → GListObject →
    Option (List Int × GListObject)
  | [], gh => some ([], gh)
  | c :: rest, gh =>
    match gwinListAddItem sizeofListItem c.gfxAlloc c.mem gh c.item_name c.useAlloc with
    | none => none
    | some r =>
      match addItems sizeofListItem rest r.gh with
      | none => none
      | some (rets, gh1) => some (r.ret :: rets, gh1)

/-- The widget states reachable from `gwinListCreate` by calls of `gwinListAddItem`
(with any allocator outcome and any memory), pointer-down events and calls of
`gwinListGetSelected`. -/
inductive Reachable (GWIN_FIRST_CONTROL_FLAG sizeofListItem listVMT : Nat) :
    GListObject → Prop where
  | create (base : Option GListObject) (pInit_show : Bool) (gh : GListObject) :
      (gwinListCreate listVMT base pInit_show).1 = some gh →
      Reachable GWIN_FIRST_CONTROL_FLAG sizeofListItem listVMT gh
  | addItem (gh : GListObject) (gfxAlloc : Nat → Nat) (m : Mem) (item_name : Nat)
      (useAlloc : Bool) (r : AddItemResult) :
      Reachable GWIN_FIRST_CONTROL_FLAG sizeofListItem listVMT gh →
      gwinListAddItem sizeofListItem gfxAlloc m gh item_name useAlloc = some r →
      Reachable GWIN_FIRST_CONTROL_FLAG sizeofListItem listVMT r.gh
  | mouseDown (gh : GListObject) (fontHeight : Int) (listeners : List GSourceListener)
      (x y : Int) (gh1 : GListObject) (calls : List Call) :
      Reachable GWIN_FIRST_CONTROL_FLAG sizeofListItem listVMT gh →
      MouseDown GWIN_FIRST_CONTROL_FLAG fontHeight listeners gh x y = some (gh1, calls) →
      Reachable GWIN_FIRST_CONTROL_FLAG sizeofListItem listVMT gh1
  | getSelected (gh : GListObject) :
      Reachable GWIN_FIRST_CONTROL_FLAG sizeofListItem listVMT gh →
      Reachable GWIN_FIRST_CONTROL_FLAG sizeofListItem listVMT
        (gwinListGetSelected GWIN_FIRST_CONTROL_FLAG listVMT gh).2

/-! ## Concrete widgets used in the examples -/

/-- A list widget at the origin, 100 by 60, with the given items. -/
def sampleList (items : List ListItem) : GListObject :=
  { self := 512, vmt := 64, x := 0, y := 0, width := 100, height := 60, visible := true,
    cnt := items.length, list_head := items }

/-- A list widget with its top edge at `y = 20` and no items. -/
def lowerList : GListObject :=
  { self := 512, vmt := 64, x := 0, y := 20, width := 100, height := 60, visible := true,
    cnt := 0, list_head := [] }

/-- Three items with the flag words `0x0001`, `0x4001` and `0x8003`. -/
def mixedFlags : List ListItem :=
  [⟨4096, 1, 5, 256⟩, ⟨4112, 16385, 6, 260⟩, ⟨4128, 32771, 7, 264⟩]

/-- Three unselected items. -/
def threeItems : List ListItem :=
  [ { addr := 4096, flags := 0, param := 0, text := 4108 },
    { addr := 4128, flags := 0, param := 0, text := 4140 },
    { addr := 4160, flags := 0, param := 0, text := 4172 } ]

/-- Three items of which the last two carry the flag `0x4000`. -/
def lastTwoSelected : List ListItem :=
  [⟨4096, 0, 0, 256⟩, ⟨4112, 16384, 0, 256⟩, ⟨4128, 16384, 0, 256⟩]

/-- Three items of which the first carries the flag `0x4000`. -/
def firstSelected : List ListItem :=
  [⟨4096, 16384, 0, 256⟩, ⟨4112, 0, 0, 256⟩, ⟨4128, 0, 0, 256⟩]

/-- Three items that all carry the flag `0x4000`. -/
def allSelected : List ListItem :=
  [⟨4096, 16384, 0, 256⟩, ⟨4112, 16384, 0, 256⟩, ⟨4128, 16384, 0, 256⟩]

/-- A memory of 128 bytes that holds the strings "Alpha", "Beta" and "Gamma" at the
addresses 1, 7 and 12. -/
def sampleMem : Mem :=
  [0, 65, 108, 112, 104, 97, 0, 66, 101, 116, 97, 0, 71, 97, 109, 109, 97, 0]
    ++ List.replicate 110 0

/-- The list widget `gwinListCreate` makes of `sampleList threeItems`: the queue is
empty and the count zero. -/
def freshList : GListObject :=
  { self := 512, vmt := 64, x := 0, y := 0, width := 100, height := 60, visible := true,
    cnt := 0, list_head := [] }

/-- Three calls of `gwinListAddItem` with the copy flag, for "Alpha", "Beta" and
"Gamma"; the allocator hands out the blocks at 32, 64 and 96. -/
def threeCalls : List AddItemCall :=
  [ { gfxAlloc := fun _ => 32, mem := sampleMem, item_name := 1, useAlloc := true },
    { gfxAlloc := fun _ => 64, mem := sampleMem, item_name := 7, useAlloc := true },
    { gfxAlloc := fun _ => 96, mem := sampleMem, item_name := 12, useAlloc := true } ]

/-- A queue of `n` unselected items, whose records lie 16 bytes apart from `addr` on. -/
def itemsFrom (addr : Nat) : Nat → List ListItem
  | 0 => []
  | n + 1 => { addr := addr, flags := 0, param := 0, text := 256 } :: itemsFrom (addr + 16) n

/-- A queue of 4683 items, each with its own record. -/
def rowItems : List ListItem := itemsFrom 4096 4683

/-- A queue of 65537 items, each with its own record. -/
def manyItems : List ListItem := itemsFrom 4096 65537

/-! ## Flag words -/

theorem two_pow_sixteen : (65536 : Nat) = 2 ^ 16 := by norm_num

theorem flagClear_land (f m : Nat) : flagClear f m &&& m = 0 := by
  apply Nat.eq_of_testBit_eq
  intro i
  rw [flagClear, two_pow_sixteen]
  simp only [Nat.testBit_and, Nat.testBit_mod_two_pow, Nat.testBit_xor, Nat.zero_testBit]
  cases f.testBit i <;> cases m.testBit i <;> simp

theorem flagTest_flagClear (f m : Nat) : flagTest (flagClear f m) m = false := by
  simp [flagTest, flagClear_land]

theorem flagTest_flagSet (f m : Nat) (h : m % 65536 ≠ 0) :
    flagTest (flagSet f m) m = true := by
  rw [two_pow_sixteen] at h
  obtain ⟨i, hi⟩ := Nat.ne_zero_implies_bit_true h
  rw [Nat.testBit_mod_two_pow] at hi
  simp only [Bool.and_eq_true, decide_eq_true_eq] at hi
  have hb : (flagSet f m &&& m).testBit i = true := by
    rw [flagSet, two_pow_sixteen, Nat.testBit_and, Nat.testBit_mod_two_pow, Nat.testBit_or]
    simp [hi.1, hi.2]
  have hne : flagSet f m &&& m ≠ 0 := by
    intro h0
    rw [h0] at hb
    simp at hb
  simp [flagTest, hne]

/-! ## The listeners -/

theorem sendListEvent_eq (listeners : List GSourceListener) (gw : GListObject) (item : Int) :
    sendListEvent listeners gw item =
      (listeners.filter (fun l => l.hasBuffer)).map
        (fun l => Call.geventSendEvent l.psl (listEvent gw item)) := by
  induction listeners with
  | nil => rfl
  | cons l rest ih =>
    cases hb : l.hasBuffer <;> simp [sendListEvent, hb, ih, listEvent]

theorem sendListEvent_mem (listeners : List GSourceListener) (gw : GListObject) (item : Int)
    (c : Call) (hc : c ∈ sendListEvent listeners gw item) :
    ∃ psl, c = Call.geventSendEvent psl (listEvent gw item) := by
  rw [sendListEvent_eq] at hc
  obtain ⟨l, _, hl⟩ := List.mem_map.mp hc
  exact ⟨l.psl, hl.symm⟩

/-! ## The selection loop -/

theorem selectLoop_length (mask id : Nat) :
    ∀ (l : List ListItem) (i : Nat), (selectLoop mask id l i).length = l.length := by
  intro l
  induction l with
  | nil => intro i; rfl
  | cons li rest ih => intro i; simp [selectLoop, ih]

theorem selectLoop_getElem? (mask id : Nat) :
    ∀ (l : List ListItem) (i j : Nat), i < 65536 →
      (selectLoop mask id l i)[j]? =
        (l[j]?).map (selectItem mask id ((i + j) % 65536)) := by
  intro l
  induction l with
  | nil => intro i j _; simp [selectLoop]
  | cons li rest ih =>
    intro i j hi
    cases j with
    | zero =>
      simp [selectLoop, Nat.mod_eq_of_lt hi]
    | succ j =>
      have h1 : (i + 1) % 65536 < 65536 := Nat.mod_lt _ (by norm_num)
      have h2 : ((i + 1) % 65536 + j) % 65536 = (i + (j + 1)) % 65536 := by omega
      simp [selectLoop, ih _ j h1, h2]

theorem isSelected_selectItem (F id i : Nat) (li : ListItem)
    (hF : GLIST_FLG_SELECTED F % 65536 ≠ 0) :
    isSelected F (selectItem (GLIST_FLG_SELECTED F) id i li) = decide (id = i) := by
  unfold selectItem isSelected
  by_cases h : id = i
  · simp [h, flagTest_flagSet _ _ hF]
  · simp [h, flagTest_flagClear]

theorem isSelected_selectItem_ne (F id i : Nat) (li : ListItem) (h : id ≠ i) :
    isSelected F (selectItem (GLIST_FLG_SELECTED F) id i li) = false := by
  unfold selectItem isSelected
  simp [h, flagTest_flagClear]

/-! ## The scan of `gwinListGetSelected` -/

theorem getSelectedLoop_none (mask : Nat) :
    ∀ (l : List ListItem) (i : Int),
      (∀ li ∈ l, flagTest li.flags mask = false) → getSelectedLoop mask l i = -1 := by
  intro l
  induction l with
  | nil => intro i _; rfl
  | cons li rest ih =>
    intro i h
    have h0 := h li (List.mem_cons_self _ _)
    simp only [getSelectedLoop, h0]
    exact ih (i + 1) (fun x hx => h x (List.mem_cons_of_mem _ hx))

theorem getSelectedLoop_first (mask : Nat) :
    ∀ (l : List ListItem) (i : Int) (j : Nat) (li : ListItem),
      l[j]? = some li → flagTest li.flags mask = true →
      (∀ j1 lj, j1 < j → l[j1]? = some lj → flagTest lj.flags mask = false) →
      getSelectedLoop mask l i = i + j := by
  intro l
  induction l with
  | nil => intro i j li h; simp at h
  | cons a rest ih =>
    intro i j li hj hsel hbefore
    cases j with
    | zero =>
      simp only [List.getElem?_cons_zero, Option.some.injEq] at hj
      subst hj
      simp [getSelectedLoop, hsel]
    | succ j =>
      have ha : flagTest a.flags mask = false :=
        hbefore 0 a (Nat.succ_pos j) (by simp)
      simp only [List.getElem?_cons_succ] at hj
      simp only [getSelectedLoop, ha]
      rw [ih (i + 1) j li hj hsel
        (fun j1 lj h1 h2 => hbefore (j1 + 1) lj (Nat.succ_lt_succ h1) (by simpa using h2))]
      push_cast
      ring

theorem getSelectedLoop_cases (mask : Nat) :
    ∀ (l : List ListItem) (i : Int),
      (getSelectedLoop mask l i = -1 ∧ ∀ li ∈ l, flagTest li.flags mask = false) ∨
      (∃ (j : Nat) (li : ListItem), l[j]? = some li ∧ flagTest li.flags mask = true ∧
        (∀ j1 lj, j1 < j → l[j1]? = some lj → flagTest lj.flags mask = false) ∧
        getSelectedLoop mask l i = i + j) := by
  intro l
  induction l with
  | nil => intro i; left; exact ⟨rfl, by simp⟩
  | cons a rest ih =>
    intro i
    cases ha : flagTest a.flags mask with
    | true =>
      right
      refine ⟨0, a, by simp, ha, ?_, by simp [getSelectedLoop, ha]⟩
      intro j1 lj h1
      omega
    | false =>
      rcases ih (i + 1) with ⟨h1, h2⟩ | ⟨j, li, h1, h2, h3, h4⟩
      · left
        refine ⟨by simp [getSelectedLoop, ha, h1], ?_⟩
        intro x hx
        rcases List.mem_cons.mp hx with rfl | hx
        · exact ha
        · exact h2 x hx
      · right
        refine ⟨j + 1, li, by simpa using h1, h2, ?_, ?_⟩
        · intro j1 lj hlt hget
          cases j1 with
          | zero =>
            simp only [List.getElem?_cons_zero, Option.some.injEq] at hget
            subst hget
            exact ha
          | succ j1 =>
            exact h3 j1 lj (by omega) (by simpa using hget)
        · simp only [getSelectedLoop, ha, h4]
          push_cast
          ring

/-! ## Pointer-down -/

theorem MouseDown_eq (F : Nat) (fontHeight : Int) (listeners : List GSourceListener)
    (gw : GListObject) (x y : Int) (hh : item_height fontHeight ≠ 0) :
    MouseDown F fontHeight listeners gw x y =
      some ({ gw with list_head :=
                selectLoop (GLIST_FLG_SELECTED F) (item_id fontHeight gw.y y) gw.list_head 0 },
            Call._gwidgetRedraw gw.self ::
              (listeners.filter (fun l => l.hasBuffer)).map
                (fun l => Call.geventSendEvent l.psl
                  (listEvent gw (item_id fontHeight gw.y y)))) := by
  simp [MouseDown, hh, sendListEvent_eq, listEvent]

theorem selectLoop_selected_iff (F k : Nat) (l : List ListItem)
    (hF : GLIST_FLG_SELECTED F % 65536 ≠ 0) (hN : l.length ≤ 65536) (j : Nat)
    (li : ListItem) (hj : (selectLoop (GLIST_FLG_SELECTED F) k l 0)[j]? = some li) :
    isSelected F li = true ↔ j = k := by
  rw [selectLoop_getElem? _ _ _ _ _ (by norm_num)] at hj
  cases hl : l[j]? with
  | none => simp [hl] at hj
  | some a =>
    have hjl : j < l.length := (List.getElem?_eq_some_iff.mp hl).1
    have hmod : (0 + j) % 65536 = j := by omega
    rw [hl, hmod] at hj
    simp only [Option.map_some', Option.some.injEq] at hj
    rw [← hj, isSelected_selectItem F k j a hF]
    simp [eq_comm]

theorem getSelectedLoop_selectLoop (F k : Nat) (l : List ListItem)
    (hF : GLIST_FLG_SELECTED F % 65536 ≠ 0) (hk : k < l.length) (hN : l.length ≤ 65536) :
    getSelectedLoop (GLIST_FLG_SELECTED F) (selectLoop (GLIST_FLG_SELECTED F) k l 0) 0 = k := by
  have hlen := selectLoop_length (GLIST_FLG_SELECTED F) k l 0
  have hk1 : k < (selectLoop (GLIST_FLG_SELECTED F) k l 0).length := by omega
  have hget : (selectLoop (GLIST_FLG_SELECTED F) k l 0)[k]? =
      some ((selectLoop (GLIST_FLG_SELECTED F) k l 0)[k]) := List.getElem?_eq_getElem hk1
  have h := getSelectedLoop_first (GLIST_FLG_SELECTED F)
    (selectLoop (GLIST_FLG_SELECTED F) k l 0) 0 k _ hget
    ((selectLoop_selected_iff F k l hF hN k _ hget).mpr rfl)
    (fun j1 lj h1 h2 => by
      have h3 := selectLoop_selected_iff F k l hF hN j1 lj h2
      have h4 : ¬ (isSelected F lj = true) := fun hs => by
        have := h3.mp hs
        omega
      simpa [isSelected] using h4)
  simpa using h

theorem countP_selectLoop (F k : Nat) (hF : GLIST_FLG_SELECTED F % 65536 ≠ 0) :
    ∀ (l : List ListItem) (i : Nat), i + l.length ≤ 65536 →
      (selectLoop (GLIST_FLG_SELECTED F) k l i).countP (isSelected F) =
        if i ≤ k ∧ k < i + l.length then 1 else 0 := by
  intro l
  induction l with
  | nil =>
    intro i _
    have h : ¬ (i ≤ k ∧ k < i) := by omega
    simp [selectLoop, h]
  | cons a rest ih =>
    intro i hi
    simp only [List.length_cons] at hi
    simp only [selectLoop, List.countP_cons, isSelected_selectItem F k i a hF]
    cases rest with
    | nil =>
      simp only [selectLoop, List.countP_nil, List.length_cons, List.length_nil]
      by_cases h : k = i
      · simp [h]
      · have : ¬ (i ≤ k ∧ k < i + (0 + 1)) := by omega
        simp [h, this]
    | cons b rest2 =>
      simp only [List.length_cons] at hi
      have hmod : (i + 1) % 65536 = i + 1 := by omega
      rw [hmod, ih (i + 1) (by simp only [List.length_cons]; omega)]
      simp only [List.length_cons]
      by_cases h : k = i
      · have : ¬ (i + 1 ≤ k ∧ k < i + 1 + (rest2.length + 1)) := by omega
        have h2 : i ≤ k ∧ k < i + (rest2.length + 1 + 1) := by omega
        simp [h, this]
      · by_cases h3 : i + 1 ≤ k ∧ k < i + 1 + (rest2.length + 1)
        · have h2 : i ≤ k ∧ k < i + (rest2.length + 1 + 1) := by omega
          simp [h, h3, h2]
        · have h2 : ¬ (i ≤ k ∧ k < i + (rest2.length + 1 + 1)) := by omega
          simp [h, h3, h2]

theorem MouseDown_press (F listVMT : Nat) (fontHeight : Int)
    (listeners : List GSourceListener) (gw : GListObject) (x y : Int) (k : Nat)
    (hF : GLIST_FLG_SELECTED F % 65536 ≠ 0) (hvmt : gw.vmt = listVMT)
    (hh : item_height fontHeight ≠ 0) (hk : item_id fontHeight gw.y y = k)
    (hkN : k < gw.list_head.length) (hN : gw.list_head.length ≤ 65536) :
    ∃ gw1 calls,
      MouseDown F fontHeight listeners gw x y = some (gw1, calls) ∧
      gw1.vmt = listVMT ∧ gw1.y = gw.y ∧
      gw1.list_head.length = gw.list_head.length ∧
      (∀ j li, gw1.list_head[j]? = some li → (isSelected F li = true ↔ j = k)) ∧
      gw1.list_head.countP (isSelected F) = 1 ∧
      (gwinListGetSelected F listVMT gw1).1 = k ∧
      calls = Call._gwidgetRedraw gw.self ::
        (listeners.filter (fun l => l.hasBuffer)).map
          (fun l => Call.geventSendEvent l.psl (listEvent gw k)) := by
  refine ⟨_, _, MouseDown_eq F fontHeight listeners gw x y hh, hvmt, rfl, ?_, ?_, ?_, ?_, ?_⟩
  · exact selectLoop_length _ _ _ _
  · intro j li hj
    rw [hk] at hj
    exact selectLoop_selected_iff F k gw.list_head hF hN j li hj
  · rw [hk, countP_selectLoop F k hF gw.list_head 0 (by omega)]
    have : 0 ≤ k ∧ k < 0 + gw.list_head.length := by omega
    rw [if_pos this]
  · simp only [gwinListGetSelected, hvmt, ne_eq, not_true_eq_false, if_false, hk]
    exact getSelectedLoop_selectLoop F k gw.list_head hF hkN hN
  · rw [hk]

theorem MouseDown_getElem? (F : Nat) (fontHeight : Int) (listeners : List GSourceListener)
    (gw : GListObject) (x y : Int) (gw1 : GListObject) (calls : List Call)
    (h : MouseDown F fontHeight listeners gw x y = some (gw1, calls)) (j : Nat) :
    gw1.list_head[j]? =
      (gw.list_head[j]?).map
        (selectItem (GLIST_FLG_SELECTED F) (item_id fontHeight gw.y y) (j % 65536)) := by
  have hh : item_height fontHeight ≠ 0 := by
    intro h0
    simp [MouseDown, h0] at h
  rw [MouseDown_eq F fontHeight listeners gw x y hh] at h
  simp only [Option.some.injEq, Prod.mk.injEq] at h
  rw [← h.1]
  have := selectLoop_getElem? (GLIST_FLG_SELECTED F) (item_id fontHeight gw.y y)
    gw.list_head 0 j (by norm_num)
  rw [Nat.zero_add] at this
  exact this

theorem itemsFrom_getElem? :
    ∀ (n addr j : Nat), j < n →
      (itemsFrom addr n)[j]? =
        some { addr := addr + 16 * j, flags := 0, param := 0, text := 256 } := by
  intro n
  induction n with
  | zero => intro addr j hj; omega
  | succ n ih =>
    intro addr j hj
    cases j with
    | zero => simp [itemsFrom]
    | succ j =>
      simp only [itemsFrom, List.getElem?_cons_succ]
      rw [ih (addr + 16) j (by omega)]
      have : addr + 16 + 16 * j = addr + 16 * (j + 1) := by ring
      rw [this]

theorem manyItems_getElem? (j : Nat) (hj : j < 65537) :
    (sampleList manyItems).list_head[j]? =
      some { addr := 4096 + 16 * j, flags := 0, param := 0, text := 256 } :=
  itemsFrom_getElem? 65537 4096 j hj

/-! ## Destruction -/

theorem destroyLoop_eq (q : gfxQueueASync) :
    destroyLoop q = ([], q.map (fun li => Call.gfxFree li.addr)) := by
  induction q with
  | nil => rfl
  | cons qi rest ih => simp [destroyLoop, ih]

theorem count_gfxFree_map (p : Nat) (q : List ListItem) :
    (q.map (fun li => Call.gfxFree li.addr)).count (Call.gfxFree p) =
      (q.map (fun li => li.addr)).count p := by
  induction q with
  | nil => rfl
  | cons qi rest ih =>
    simp only [List.map_cons, List.count_cons, ih]
    by_cases h : qi.addr = p <;> simp [h]

theorem count_gwidgetDestroy_map (g : Nat) (q : List ListItem) :
    (q.map (fun li => Call.gfxFree li.addr)).count (Call._gwidgetDestroy g) = 0 := by
  induction q with
  | nil => rfl
  | cons qi rest ih => simp [List.count_cons, ih]

/-! ## Out-of-range presses -/

theorem item_id_lt (fontHeight gy y : Int) : item_id fontHeight gy y < 65536 := by
  unfold item_id toU16
  omega

theorem selectLoop_unselected (F id : Nat) (l : List ListItem) (hN : l.length ≤ id)
    (hid : id < 65536) :
    ∀ li ∈ selectLoop (GLIST_FLG_SELECTED F) id l 0, isSelected F li = false := by
  intro li hli
  obtain ⟨j, hj⟩ := List.getElem?_of_mem hli
  rw [selectLoop_getElem? _ _ _ _ _ (by norm_num)] at hj
  cases hl : l[j]? with
  | none => simp [hl] at hj
  | some a =>
    have hjl : j < l.length := (List.getElem?_eq_some_iff.mp hl).1
    have hmod : (0 + j) % 65536 = j := by omega
    rw [hl, hmod] at hj
    simp only [Option.map_some', Option.some.injEq] at hj
    rw [← hj]
    exact isSelected_selectItem_ne F id j a (by omega)

/-! ## Memory and strings -/

theorem exists_eq_takeWhile_append (l : List Nat) (h : 0 ∈ l) :
    ∃ rest, l = l.takeWhile (fun b => b != 0) ++ 0 :: rest := by
  induction l with
  | nil => simp at h
  | cons b l ih =>
    by_cases hb : b = 0
    · exact ⟨l, by simp [hb]⟩
    · have h0 : 0 ∈ l := by
        rcases List.mem_cons.mp h with h1 | h1
        · exact absurd h1.symm hb
        · exact h1
      obtain ⟨rest, hrest⟩ := ih h0
      refine ⟨rest, ?_⟩
      simp only [List.takeWhile_cons, bne_iff_ne, ne_eq, hb, not_false_eq_true, if_true,
        List.cons_append]
      rw [← hrest]

theorem takeWhile_append_zero (s rest : List Nat) (hs : ∀ b ∈ s, b ≠ 0) :
    (s ++ 0 :: rest).takeWhile (fun b => b != 0) = s := by
  induction s with
  | nil => simp
  | cons b s ih =>
    have hb : b ≠ 0 := hs b (List.mem_cons_self _ _)
    simp only [List.cons_append, List.takeWhile_cons, bne_iff_ne, ne_eq, hb,
      not_false_eq_true, if_true]
    rw [ih (fun x hx => hs x (List.mem_cons_of_mem _ hx))]

theorem cstr_eq_some_iff (m : Mem) (p : Nat) (s : List Nat) :
    cstr m p = some s ↔ (∃ rest, m.drop p = s ++ 0 :: rest) ∧ ∀ b ∈ s, b ≠ 0 := by
  constructor
  · intro h
    unfold cstr at h
    by_cases h0 : 0 ∈ m.drop p
    · rw [if_pos h0] at h
      simp only [Option.some.injEq] at h
      obtain ⟨rest, hrest⟩ := exists_eq_takeWhile_append _ h0
      rw [h] at hrest
      refine ⟨⟨rest, hrest⟩, ?_⟩
      intro b hb
      rw [← h] at hb
      simpa using List.mem_takeWhile_imp hb
    · rw [if_neg h0] at h
      exact absurd h (by simp)
  · rintro ⟨⟨rest, hrest⟩, hs⟩
    unfold cstr
    rw [hrest, if_pos (by simp), takeWhile_append_zero s rest hs]

theorem drop_eq_append_iff (bs : List Nat) :
    ∀ (m : Mem) (p : Nat),
      (∃ rest, m.drop p = bs ++ rest) ↔ ∀ i, i < bs.length → m[p + i]? = bs[i]? := by
  induction bs with
  | nil =>
    intro m p
    constructor
    · intro _ i hi
      simp at hi
    · intro _
      exact ⟨m.drop p, rfl⟩
  | cons b bs ih =>
    intro m p
    constructor
    · rintro ⟨rest, hrest⟩ i hi
      rw [← List.getElem?_drop, hrest, List.getElem?_append_left hi]
    · intro h
      have h0 := h 0 (by simp)
      simp only [Nat.add_zero, List.getElem?_cons_zero] at h0
      obtain ⟨hp, hb⟩ := List.getElem?_eq_some_iff.mp h0
      have h1 : ∀ i, i < bs.length → m[p + 1 + i]? = bs[i]? := by
        intro i hi
        have := h (i + 1) (by simpa using hi)
        simp only [List.getElem?_cons_succ] at this
        rw [← this]
        congr 1
        omega
      obtain ⟨rest, hrest⟩ := (ih m (p + 1)).mpr h1
      refine ⟨rest, ?_⟩
      rw [List.drop_eq_getElem_cons hp, hb, hrest]
      rfl

theorem cstr_iff_bytes (m : Mem) (p : Nat) (s : List Nat) :
    cstr m p = some s ↔
      (∀ i, i < (s ++ [0]).length → m[p + i]? = (s ++ [0])[i]?) ∧ ∀ b ∈ s, b ≠ 0 := by
  rw [cstr_eq_some_iff, ← drop_eq_append_iff]
  simp

theorem storeBytes_getElem? (m m1 : Mem) (dst : Nat) (bs : List Nat)
    (h : storeBytes m dst bs = some m1) (a : Nat) :
    m1[a]? = if dst ≤ a ∧ a < dst + bs.length then bs[a - dst]? else m[a]? := by
  unfold storeBytes at h
  by_cases hfit : dst + bs.length ≤ m.length
  · rw [if_pos hfit] at h
    simp only [Option.some.injEq] at h
    have hlen : (m.take dst).length = dst := by
      rw [List.length_take]
      omega
    rw [← h]
    by_cases h1 : a < dst
    · have hc : ¬ (dst ≤ a ∧ a < dst + bs.length) := by omega
      rw [if_neg hc, List.append_assoc, List.getElem?_append_left (by omega),
        List.getElem?_take_of_lt h1]
    · by_cases h2 : a < dst + bs.length
      · have hc : dst ≤ a ∧ a < dst + bs.length := by omega
        rw [if_pos hc, List.append_assoc, List.getElem?_append_right (by omega), hlen,
          List.getElem?_append_left (by omega)]
      · have hc : ¬ (dst ≤ a ∧ a < dst + bs.length) := by omega
        rw [if_neg hc, List.getElem?_append_right (by simp only [List.length_append]; omega),
          List.getElem?_drop]
        congr 1
        simp only [List.length_append]
        omega
  · rw [if_neg hfit] at h
    exact absurd h (by simp)

theorem cstr_storeBytes (m m1 : Mem) (dst : Nat) (s : List Nat) (hs : ∀ b ∈ s, b ≠ 0)
    (h : storeBytes m dst (s ++ [0]) = some m1) : cstr m1 dst = some s := by
  rw [cstr_iff_bytes]
  refine ⟨?_, hs⟩
  intro i hi
  rw [storeBytes_getElem? m m1 dst _ h (dst + i), if_pos (by omega)]
  congr 1
  omega

/-! ## Adding items -/

theorem gwinListAddItem_copy_eq (sz0 : Nat) (gfxAlloc : Nat → Nat) (m : Mem)
    (gh : GListObject) (p : Nat) (s : List Nat) (hs : cstr m p = some s)
    (ha : gfxAlloc (sz0 + s.length + 1) ≠ 0)
    (hin : gfxAlloc (sz0 + s.length + 1) + sz0 + s.length + 1 ≤ m.length) :
    ∃ m1, storeBytes m (gfxAlloc (sz0 + s.length + 1) + sz0) (s ++ [0]) = some m1 ∧
      gwinListAddItem sz0 gfxAlloc m gh p true =
        some { ret := gh.cnt,
               gh := { gh with
                 list_head := gh.list_head ++
                   [{ addr := gfxAlloc (sz0 + s.length + 1), flags := 0, param := 0,
                      text := gfxAlloc (sz0 + s.length + 1) + sz0 }],
                 cnt := gh.cnt + 1 },
               mem := m1,
               calls := [Call.gfxAlloc (sz0 + s.length + 1),
                 Call.strcpy (gfxAlloc (sz0 + s.length + 1) + sz0) p] } := by
  have hfit : gfxAlloc (sz0 + s.length + 1) + sz0 + (s ++ [0]).length ≤ m.length := by
    simp only [List.length_append, List.length_singleton]
    omega
  have hfit1 : gfxAlloc (sz0 + s.length + 1) + sz0 + (s.length + 1) ≤ m.length := by
    omega
  refine ⟨_, if_pos hfit, ?_⟩
  simp [gwinListAddItem, strlen, strcpy, hs, ha, storeBytes, hfit1, gfxQueueASyncPut]

theorem gwinListAddItem_nocopy_eq (sz0 : Nat) (gfxAlloc : Nat → Nat) (m : Mem)
    (gh : GListObject) (p : Nat) (ha : gfxAlloc sz0 ≠ 0) :
    gwinListAddItem sz0 gfxAlloc m gh p false =
      some { ret := gh.cnt,
             gh := { gh with
               list_head := gh.list_head ++
                 [{ addr := gfxAlloc sz0, flags := 0, param := 0, text := p }],
               cnt := gh.cnt + 1 },
             mem := m,
             calls := [Call.gfxAlloc sz0] } := by
  simp [gwinListAddItem, ha, gfxQueueASyncPut]

theorem gwinListAddItem_cases (sz0 : Nat) (gfxAlloc : Nat → Nat) (m : Mem)
    (gh : GListObject) (p : Nat) (useAlloc : Bool) (r : AddItemResult)
    (h : gwinListAddItem sz0 gfxAlloc m gh p useAlloc = some r) :
    (r.ret = -1 ∧ r.gh = gh ∧ r.mem = m) ∨
    (∃ item : ListItem, item.flags = 0 ∧ item.param = 0 ∧ r.ret = gh.cnt ∧
      r.gh = { gh with list_head := gh.list_head ++ [item], cnt := gh.cnt + 1 }) := by
  unfold gwinListAddItem at h
  cases useAlloc with
  | false =>
    simp only [Bool.false_eq_true, if_false] at h
    by_cases ha : gfxAlloc sz0 = 0
    · simp only [ha, if_true, Option.some.injEq] at h
      left
      rw [← h]
      exact ⟨rfl, rfl, rfl⟩
    · simp only [ha, if_false, Option.some.injEq] at h
      right
      rw [← h]
      exact ⟨⟨gfxAlloc sz0, 0, 0, p⟩, rfl, rfl, by simp, by simp [gfxQueueASyncPut]⟩
  | true =>
    simp only [if_true] at h
    cases hlen : strlen m p with
    | none => simp [hlen] at h
    | some n =>
      simp only [hlen, Option.map_some'] at h
      by_cases ha : gfxAlloc (sz0 + n + 1) = 0
      · simp only [ha, if_true, Option.some.injEq] at h
        left
        rw [← h]
        exact ⟨rfl, rfl, rfl⟩
      · simp only [ha, if_false] at h
        cases hcp : strcpy m (gfxAlloc (sz0 + n + 1) + sz0) p with
        | none => simp [hcp] at h
        | some m1 =>
          simp only [hcp, Option.map_some', Option.some.injEq] at h
          right
          rw [← h]
          exact ⟨⟨gfxAlloc (sz0 + n + 1), 0, 0, gfxAlloc (sz0 + n + 1) + sz0⟩, rfl, rfl,
            by simp, by simp [gfxQueueASyncPut]⟩

theorem AddItemCall.step (sz0 : Nat) (c : AddItemCall) (gh : GListObject)
    (hc : c.succeeds sz0) :
    ∃ r, gwinListAddItem sz0 c.gfxAlloc c.mem gh c.item_name c.useAlloc = some r ∧
      r.ret = gh.cnt ∧
      r.gh = { gh with list_head := gh.list_head ++ [c.item sz0], cnt := gh.cnt + 1 } := by
  unfold AddItemCall.succeeds at hc
  cases hu : c.useAlloc with
  | false =>
    simp only [hu, Bool.false_eq_true, if_false] at hc
    refine ⟨_, gwinListAddItem_nocopy_eq sz0 c.gfxAlloc c.mem gh c.item_name hc, rfl, ?_⟩
    simp [AddItemCall.item, hu]
  | true =>
    simp only [hu, if_true] at hc
    obtain ⟨s, hs, ha, hin⟩ := hc
    obtain ⟨m1, _, h⟩ := gwinListAddItem_copy_eq sz0 c.gfxAlloc c.mem gh c.item_name s hs ha hin
    refine ⟨_, h, rfl, ?_⟩
    simp [AddItemCall.item, hu, strlen, hs]

theorem addItems_eq (sz0 : Nat) :
    ∀ (calls : List AddItemCall) (gh : GListObject),
      (∀ c ∈ calls, c.succeeds sz0) →
      addItems sz0 calls gh =
        some ((List.range calls.length).map (fun (i : Nat) => gh.cnt + (i : Int)),
          { gh with list_head := gh.list_head ++ calls.map (AddItemCall.item sz0),
                    cnt := gh.cnt + calls.length }) := by
  intro calls
  induction calls with
  | nil => intro gh _; simp [addItems]
  | cons c rest ih =>
    intro gh h
    obtain ⟨r, hr, hret, hgh⟩ := AddItemCall.step sz0 c gh (h c (List.mem_cons_self _ _))
    simp only [addItems, hr]
    rw [ih r.gh (fun x hx => h x (List.mem_cons_of_mem _ hx)), hret, hgh]
    simp only [List.length_cons, List.map_cons, Option.some.injEq, Prod.mk.injEq]
    constructor
    · rw [List.range_succ_eq_map]
      simp only [List.map_cons, List.map_map, Nat.cast_zero, add_zero, List.cons.injEq,
        true_and]
      apply List.map_congr_left
      intro i _
      show gh.cnt + 1 + (i : Int) = gh.cnt + ((i + 1 : Nat) : Int)
      push_cast
      ring
    · simp only [List.append_assoc, List.singleton_append, Nat.cast_add, Nat.cast_one]
      congr 1
      ring

/-! ## Failed allocations and new items -/

theorem gwinListAddItem_fail_eq (sz0 : Nat) (c : AddItemCall) (gh : GListObject)
    (hc : c.fails sz0) :
    ∃ sz, gwinListAddItem sz0 c.gfxAlloc c.mem gh c.item_name c.useAlloc =
      some { ret := -1, gh := gh, mem := c.mem, calls := [Call.gfxAlloc sz] } := by
  unfold AddItemCall.fails at hc
  cases hu : c.useAlloc with
  | false =>
    simp only [hu, Bool.false_eq_true, if_false] at hc
    exact ⟨sz0, by simp [gwinListAddItem, hc]⟩
  | true =>
    simp only [hu, if_true] at hc
    obtain ⟨s, hs, ha⟩ := hc
    exact ⟨sz0 + s.length + 1, by simp [gwinListAddItem, strlen, hs, ha]⟩

theorem flagTest_zero (mask : Nat) : flagTest 0 mask = false := by
  simp [flagTest]

theorem getSelectedLoop_append_unselected (mask : Nat) (item : ListItem)
    (hitem : flagTest item.flags mask = false) :
    ∀ (l : List ListItem) (i : Int),
      getSelectedLoop mask (l ++ [item]) i = getSelectedLoop mask l i := by
  intro l
  induction l with
  | nil => intro i; simp [getSelectedLoop, hitem]
  | cons a rest ih =>
    intro i
    show (if flagTest a.flags mask = true then i
        else getSelectedLoop mask (rest ++ [item]) (i + 1)) =
      if flagTest a.flags mask = true then i else getSelectedLoop mask rest (i + 1)
    rw [ih]

theorem AddItemCall.item_flags (sz0 : Nat) (c : AddItemCall) :
    (c.item sz0).flags = 0 ∧ (c.item sz0).param = 0 := by
  unfold AddItemCall.item
  cases c.useAlloc <;> simp

theorem sendListEvent_append (l1 l2 : List GSourceListener) (gw : GListObject)
    (item : Int) :
    sendListEvent (l1 ++ l2) gw item = sendListEvent l1 gw item ++ sendListEvent l2 gw item := by
  simp [sendListEvent_eq]

theorem count_geventSendEvent_map (psl : Nat) (pe : GEventGWinList)
    (ls : List GSourceListener) :
    (ls.map (fun l => Call.geventSendEvent l.psl pe)).count (Call.geventSendEvent psl pe) =
      ls.countP (fun l => l.psl == psl) := by
  induction ls with
  | nil => rfl
  | cons l rest ih =>
    simp only [List.map_cons, List.count_cons, List.countP_cons, ih]
    by_cases h : l.psl = psl <;> simp [h]

/-! ## Drawing -/

theorem drawLoop_cons (mask : Nat) (gw : GListObject) (fheight i : Nat) (li : ListItem)
    (rest : List ListItem) :
    drawLoop mask gw fheight (li :: rest) i =
      drawItem mask gw fheight i li ::
        drawLoop mask gw fheight rest ((i + fheight + 4) % 65536) := by
  unfold drawItem
  rfl

theorem drawLoop_length (mask : Nat) (gw : GListObject) (fheight : Nat) :
    ∀ (l : List ListItem) (i : Nat), (drawLoop mask gw fheight l i).length = l.length := by
  intro l
  induction l with
  | nil => intro i; rfl
  | cons li rest ih => intro i; simp [drawLoop_cons, ih]

theorem drawLoop_getElem? (mask : Nat) (gw : GListObject) (fheight : Nat) :
    ∀ (l : List ListItem) (i j : Nat), i < 65536 →
      (drawLoop mask gw fheight l i)[j]? =
        (l[j]?).map (drawItem mask gw fheight ((i + j * (fheight + 4)) % 65536)) := by
  intro l
  induction l with
  | nil => intro i j _; simp [drawLoop]
  | cons li rest ih =>
    intro i j hi
    cases j with
    | zero => simp [drawLoop_cons, Nat.mod_eq_of_lt hi]
    | succ j =>
      have h1 : (i + fheight + 4) % 65536 < 65536 := Nat.mod_lt _ (by norm_num)
      have h2 : (j + 1) * (fheight + 4) = j * (fheight + 4) + (fheight + 4) := by ring
      have h3 : ((i + fheight + 4) % 65536 + j * (fheight + 4)) % 65536 =
          (i + (j + 1) * (fheight + 4)) % 65536 := by
        rw [h2]
        omega
      simp [drawLoop_cons, ih _ j h1, h3]

theorem toU16_of_range (h : Int) (h0 : 0 ≤ h) (h1 : h < 65536) : ((toU16 h : Nat) : Int) = h := by
  unfold toU16
  omega

theorem gwinListDefaultDraw_getElem?_succ (F : Nat) (h : Int) (gw : GListObject) (j : Nat) :
    (gwinListDefaultDraw F h gw)[j + 1]? =
      (gw.list_head[j]?).map
        (drawItem (GLIST_FLG_SELECTED F) gw (toU16 h) ((j * (toU16 h + 4)) % 65536)) := by
  have := drawLoop_getElem? (GLIST_FLG_SELECTED F) gw (toU16 h) gw.list_head 0 j (by norm_num)
  rw [Nat.zero_add] at this
  simpa [gwinListDefaultDraw] using this

theorem drawLoop_isRow (mask : Nat) (gw : GListObject) (fheight : Nat) :
    ∀ (l : List ListItem) (i : Nat) (c : Call), c ∈ drawLoop mask gw fheight l i →
      c.isRow = true := by
  intro l
  induction l with
  | nil => intro i c hc; simp [drawLoop] at hc
  | cons li rest ih =>
    intro i c hc
    rw [drawLoop_cons] at hc
    rcases List.mem_cons.mp hc with h | h
    · rw [h]
      unfold drawItem
      cases flagTest li.flags mask <;> rfl
    · exact ih _ c h

theorem toCoord_of_range (n : Int) (h0 : -32768 ≤ n) (h1 : n ≤ 32767) : toCoord n = n := by
  unfold toCoord
  omega

/-! ## The bits a pointer-down leaves alone -/

theorem testBit_of_lt_two_pow_sixteen (f b : Nat) (hf : f < 65536) (hb : ¬ b < 16) :
    f.testBit b = false := by
  apply Nat.testBit_lt_two_pow
  have h16 : 16 ≤ b := by omega
  calc f < 2 ^ 16 := by rw [← two_pow_sixteen]; exact hf
    _ ≤ 2 ^ b := Nat.pow_le_pow_right (by norm_num) h16

theorem flagSet_testBit (f m b : Nat) (hf : f < 65536) (hm : m.testBit b = false) :
    (flagSet f m).testBit b = f.testBit b := by
  rw [flagSet, two_pow_sixteen, Nat.testBit_mod_two_pow, Nat.testBit_or, hm]
  by_cases hb : b < 16
  · simp [hb]
  · simp [hb, testBit_of_lt_two_pow_sixteen f b hf hb]

theorem flagClear_testBit (f m b : Nat) (hf : f < 65536) (hm : m.testBit b = false) :
    (flagClear f m).testBit b = f.testBit b := by
  rw [flagClear, two_pow_sixteen, Nat.testBit_mod_two_pow, Nat.testBit_xor, Nat.testBit_and,
    hm]
  by_cases hb : b < 16
  · simp [hb]
  · simp [hb, testBit_of_lt_two_pow_sixteen f b hf hb]

theorem selectItem_frame (mask id i : Nat) (li : ListItem) (hf : li.flags < 65536) :
    (selectItem mask id i li).addr = li.addr ∧
    (selectItem mask id i li).param = li.param ∧
    (selectItem mask id i li).text = li.text ∧
    ∀ b, mask.testBit b = false →
      (selectItem mask id i li).flags.testBit b = li.flags.testBit b := by
  unfold selectItem
  by_cases h : id = i
  · rw [if_pos h]
    exact ⟨rfl, rfl, rfl, fun b hb => flagSet_testBit _ _ b hf hb⟩
  · rw [if_neg h]
    exact ⟨rfl, rfl, rfl, fun b hb => flagClear_testBit _ _ b hf hb⟩

theorem GLIST_FLG_SELECTED_testBit_zero (F : Nat) : (GLIST_FLG_SELECTED F).testBit 0 = false := by
  unfold GLIST_FLG_SELECTED
  rw [Nat.testBit_shiftLeft]
  simp

theorem land_one_eq_of_testBit_zero (a b : Nat) (h : a.testBit 0 = b.testBit 0) :
    a &&& 1 = b &&& 1 := by
  rw [Nat.and_one_is_mod, Nat.and_one_is_mod]
  rw [Nat.testBit_zero, Nat.testBit_zero] at h
  have h2 : (a % 2 = 1) ↔ (b % 2 = 1) := by simpa using h
  omega

/-! ## The row index -/

theorem item_height_of_range (h : Int) (h0 : 0 ≤ h) (h1 : h ≤ 65533) :
    ((item_height h : Nat) : Int) = h + 2 := by
  unfold item_height toU16
  omega

theorem item_id_of_range (h gy y : Int) (h0 : 0 ≤ h) (h1 : h ≤ 65533)
    (hgy : -32768 ≤ gy) (hy : y ≤ 32767) (hge : gy ≤ y) :
    ((item_id h gy y : Nat) : Int) = (y - gy) / (h + 2) := by
  have hh := item_height_of_range h h0 h1
  have hnn : (0 : Int) ≤ y - gy := by omega
  have hq0 : 0 ≤ (y - gy) / (h + 2) := Int.ediv_nonneg hnn (by omega)
  have hq1 : (y - gy) / (h + 2) ≤ y - gy := Int.ediv_le_self _ hnn
  unfold item_id
  rw [hh, Int.tdiv_eq_ediv hnn (by omega)]
  unfold toU16
  omega

/-! ## The emulated fill -/

theorem Driver.emulatedLine_apply (d : Driver) (f : Frame) (x y : Int) (color : Nat) :
    ∀ (n : Nat) (px py : Int),
      d.emulatedLine f x y color n px py =
        if x ≤ px ∧ px < x + n ∧ py = y then d.convert color else f px py := by
  intro n
  induction n with
  | zero =>
    intro px py
    have : ¬ (x ≤ px ∧ px < x + ((0 : Nat) : Int) ∧ py = y) := by
      simp only [Nat.cast_zero, add_zero]
      omega
    rw [if_neg this]
    rfl
  | succ n ih =>
    intro px py
    show (if px = x + n ∧ py = y then d.convert color
      else d.emulatedLine f x y color n px py) = _
    rw [ih]
    by_cases h1 : px = x + n ∧ py = y
    · have h2 : x ≤ px ∧ px < x + ((n + 1 : Nat) : Int) ∧ py = y := by
        push_cast
        omega
      rw [if_pos h1, if_pos h2]
    · rw [if_neg h1]
      by_cases h3 : x ≤ px ∧ px < x + (n : Int) ∧ py = y
      · have h2 : x ≤ px ∧ px < x + ((n + 1 : Nat) : Int) ∧ py = y := by
          push_cast
          omega
        rw [if_pos h3, if_pos h2]
      · have h2 : ¬ (x ≤ px ∧ px < x + ((n + 1 : Nat) : Int) ∧ py = y) := by
          push_cast
          omega
        rw [if_neg h3, if_neg h2]

theorem Driver.emulatedFill_apply (d : Driver) (f : Frame) (x y : Int) (cx : Nat)
    (color : Nat) :
    ∀ (n : Nat) (px py : Int),
      d.emulatedFill f x y cx color n px py =
        if x ≤ px ∧ px < x + cx ∧ y ≤ py ∧ py < y + n then d.convert color
        else f px py := by
  intro n
  induction n with
  | zero =>
    intro px py
    have : ¬ (x ≤ px ∧ px < x + (cx : Int) ∧ y ≤ py ∧ py < y + ((0 : Nat) : Int)) := by
      simp only [Nat.cast_zero, add_zero]
      omega
    rw [if_neg this]
    rfl
  | succ n ih =>
    intro px py
    show d.emulatedLine (d.emulatedFill f x y cx color n) x (y + n) color cx px py = _
    rw [Driver.emulatedLine_apply, ih]
    by_cases h1 : x ≤ px ∧ px < x + (cx : Int) ∧ py = y + n
    · have h2 : x ≤ px ∧ px < x + (cx : Int) ∧ y ≤ py ∧
          py < y + ((n + 1 : Nat) : Int) := by
        push_cast
        omega
      rw [if_pos h1, if_pos h2]
    · rw [if_neg h1]
      by_cases h3 : x ≤ px ∧ px < x + (cx : Int) ∧ y ≤ py ∧ py < y + (n : Int)
      · have h2 : x ≤ px ∧ px < x + (cx : Int) ∧ y ≤ py ∧
            py < y + ((n + 1 : Nat) : Int) := by
          push_cast
          omega
        rw [if_pos h3, if_pos h2]
      · have h2 : ¬ (x ≤ px ∧ px < x + (cx : Int) ∧ y ≤ py ∧
            py < y + ((n + 1 : Nat) : Int)) := by
          push_cast
          omega
        rw [if_neg h3, if_neg h2]

/-! ## The properties -/

/-- C1, amended: on a list of `N` items with `N ≤ 65536`, in any prior selection state,
a pointer-down whose computed row index is `k < N` leaves item `k` selected and no other
item selected (exactly one item carries the selected flag), `gwinListGetSelected` then
returns `k`, and the calls made are the redraw followed by one event per listener with a
free buffer, each carrying item index `k`.  A second pointer-down at a row `j ≠ k` leaves
item `j` selected and item `k` deselected.  `GLIST_FLG_SELECTED` is taken to have a bit
inside the 16-bit flag word. -/
theorem MouseDown_selects_row (F listVMT : Nat) (fontHeight : Int)
    (listeners : List GSourceListener) (gw : GListObject) (x y : Int) (k : Nat)
    (hF : GLIST_FLG_SELECTED F % 65536 ≠ 0) (hvmt : gw.vmt = listVMT)
    (hh : item_height fontHeight ≠ 0) (hk : item_id fontHeight gw.y y = k)
    (hkN : k < gw.list_head.length) (hN : gw.list_head.length ≤ 65536) :
    ∃ gw1 calls,
      MouseDown F fontHeight listeners gw x y = some (gw1, calls) ∧
      gw1.list_head.length = gw.list_head.length ∧
      (∀ j li, gw1.list_head[j]? = some li → (isSelected F li = true ↔ j = k)) ∧
      gw1.list_head.countP (isSelected F) = 1 ∧
      (gwinListGetSelected F listVMT gw1).1 = k ∧
      calls = Call._gwidgetRedraw gw.self ::
        (listeners.filter (fun l => l.hasBuffer)).map
          (fun l => Call.geventSendEvent l.psl (listEvent gw k)) ∧
      ∀ (x2 y2 : Int) (j : Nat),
        item_id fontHeight gw1.y y2 = j → j < gw.list_head.length → j ≠ k →
        ∃ gw2 calls2,
          MouseDown F fontHeight listeners gw1 x2 y2 = some (gw2, calls2) ∧
          (∀ i li, gw2.list_head[i]? = some li → (isSelected F li = true ↔ i = j)) ∧
          gw2.list_head.countP (isSelected F) = 1 ∧
          (gwinListGetSelected F listVMT gw2).1 = j := by
  obtain ⟨gw1, calls, h1, hv1, _, hlen, hsel, hcnt, hget, hcalls⟩ :=
    MouseDown_press F listVMT fontHeight listeners gw x y k hF hvmt hh hk hkN hN
  refine ⟨gw1, calls, h1, hlen, hsel, hcnt, hget, hcalls, ?_⟩
  intro x2 y2 j hj hjN _
  obtain ⟨gw2, calls2, h2, _, _, _, hsel2, hcnt2, hget2, _⟩ :=
    MouseDown_press F listVMT fontHeight listeners gw1 x2 y2 j hF hv1 hh hj
      (by omega) (by omega)
  exact ⟨gw2, calls2, h2, hsel2, hcnt2, hget2⟩

/-- C1, an instance: three items, font height 10, a press at `y = 14` (row 1), one
listener with a free buffer and one without. -/
theorem MouseDown_selects_row_witness :
    (GLIST_FLG_SELECTED 4096 % 65536 ≠ 0 ∧ (sampleList threeItems).vmt = 64 ∧
      item_height 10 ≠ 0 ∧ item_id 10 (sampleList threeItems).y 14 = 1 ∧
      1 < (sampleList threeItems).list_head.length ∧
      (sampleList threeItems).list_head.length ≤ 65536) ∧
    ∃ gw1 calls,
      MouseDown 4096 10 [⟨7, true⟩, ⟨8, false⟩] (sampleList threeItems) 5 14
        = some (gw1, calls) ∧
      gw1.list_head.length = (sampleList threeItems).list_head.length ∧
      (∀ j li, gw1.list_head[j]? = some li → (isSelected 4096 li = true ↔ j = 1)) ∧
      gw1.list_head.countP (isSelected 4096) = 1 ∧
      (gwinListGetSelected 4096 64 gw1).1 = ((1 : Nat) : Int) ∧
      calls = Call._gwidgetRedraw (sampleList threeItems).self ::
        (([⟨7, true⟩, ⟨8, false⟩] : List GSourceListener).filter
          (fun l => l.hasBuffer)).map
          (fun l => Call.geventSendEvent l.psl (listEvent (sampleList threeItems) (1 : Nat))) ∧
      ∀ (x2 y2 : Int) (j : Nat),
        item_id 10 gw1.y y2 = j → j < (sampleList threeItems).list_head.length → j ≠ 1 →
        ∃ gw2 calls2,
          MouseDown 4096 10 [⟨7, true⟩, ⟨8, false⟩] gw1 x2 y2 = some (gw2, calls2) ∧
          (∀ i li, gw2.list_head[i]? = some li → (isSelected 4096 li = true ↔ i = j)) ∧
          gw2.list_head.countP (isSelected 4096) = 1 ∧
          (gwinListGetSelected 4096 64 gw2).1 = j :=
  ⟨⟨by decide, rfl, by decide, by decide, by decide, by decide⟩,
    MouseDown_selects_row 4096 64 10 [⟨7, true⟩, ⟨8, false⟩] (sampleList threeItems) 5 14 1
      (by decide) rfl (by decide) (by decide) (by decide) (by decide)⟩

/-- C1 as stated fails on a list of 65537 items: the 16-bit row counter of `MouseDown`
is back at 0 when it reaches item 65536, so a press at row 0 (`y` at the top edge, font
height 10) leaves both item 0 and item 65536 with the selected flag. -/
theorem MouseDown_selects_two_rows :
    item_height 10 ≠ 0 ∧ item_id 10 (sampleList manyItems).y 0 = 0 ∧
    0 < (sampleList manyItems).list_head.length ∧
    ∃ gw1 calls li0 li1,
      MouseDown 4096 10 [] (sampleList manyItems) 0 0 = some (gw1, calls) ∧
      gw1.list_head[0]? = some li0 ∧ isSelected 4096 li0 = true ∧
      gw1.list_head[65536]? = some li1 ∧ isSelected 4096 li1 = true := by
  have hh : item_height 10 ≠ 0 := by decide
  have hid : item_id 10 (sampleList manyItems).y 0 = 0 := by decide
  have hF : GLIST_FLG_SELECTED 4096 % 65536 ≠ 0 := by decide
  have hlen : 0 < (sampleList manyItems).list_head.length := by
    have h0 := manyItems_getElem? 0 (by norm_num)
    exact (List.getElem?_eq_some_iff.mp h0).1
  have hm := MouseDown_eq 4096 10 [] (sampleList manyItems) 0 0 hh
  refine ⟨hh, hid, hlen, _, _,
    selectItem (GLIST_FLG_SELECTED 4096) 0 0 ⟨4096, 0, 0, 256⟩,
    selectItem (GLIST_FLG_SELECTED 4096) 0 0 ⟨4096 + 16 * 65536, 0, 0, 256⟩,
    hm, ?_, ?_, ?_, ?_⟩
  · rw [MouseDown_getElem? _ _ _ _ _ _ _ _ hm 0, manyItems_getElem? 0 (by norm_num), hid]
    rfl
  · exact (isSelected_selectItem 4096 0 0 _ hF).trans (by simp)
  · rw [MouseDown_getElem? _ _ _ _ _ _ _ _ hm 65536,
      manyItems_getElem? 65536 (by norm_num), hid]
    rfl
  · exact (isSelected_selectItem 4096 0 0 _ hF).trans (by simp)

/-- C2: the row height of `MouseDown` is the font height plus 2, not the font height plus
4 of `gwinListDefaultDraw`.  With font height 10 and the widget at `y = 0`, item 1 of a
three-item list is drawn in the strip `17 ≤ y < 27`; a press at `y = 26`, inside that
strip, has `(26 - 0) / (10 + 4) = 1`, but `MouseDown` divides by 12, computes row 2 and
selects item 2. -/
theorem MouseDown_row_differs_from_draw :
    ((0 : Int) + 3 + 1 * (10 + 4) ≤ 26 ∧ (26 : Int) < 0 + 3 + 1 * (10 + 4) + 10) ∧
    (gwinListDefaultDraw 4096 10 (sampleList threeItems))[2]? =
      some (Call.gdispFillStringBox 3 17 94 10 4140 Color.Black Color.White) ∧
    ((26 : Int) - 0) / (10 + 4) = 1 ∧
    item_height 10 = 12 ∧
    item_id 10 (sampleList threeItems).y 26 = 2 ∧
    (MouseDown 4096 10 [] (sampleList threeItems) 5 26).map
        (fun r => (r.1.list_head.map (isSelected 4096), (gwinListGetSelected 4096 64 r.1).1,
          r.2))
      = some ([false, false, true], 2, [Call._gwidgetRedraw 512]) := by
  refine ⟨⟨by decide, by decide⟩, by decide, by decide, by decide, by decide, by decide⟩

/-- C3: `N` calls of `gwinListAddItem` on a freshly created list, each with a successful
allocation, return `0, 1, ..., N - 1` in that order, leave `cnt = N`, and leave on the
queue the items of the calls, front to back in the order of the calls. -/
theorem gwinListAddItem_returns_indices (sz0 listVMT : Nat) (base : Option GListObject)
    (pInit_show : Bool) (gh0 : GListObject) (calls : List AddItemCall)
    (hcreate : (gwinListCreate listVMT base pInit_show).1 = some gh0)
    (hok : ∀ c ∈ calls, c.succeeds sz0) :
    ∃ gh1,
      addItems sz0 calls gh0 =
        some ((List.range calls.length).map (fun (i : Nat) => (i : Int)), gh1) ∧
      gh1.cnt = calls.length ∧
      gh1.list_head.length = calls.length ∧
      gh1.list_head = calls.map (AddItemCall.item sz0) ∧
      ∀ (i : Nat) (c : AddItemCall), calls[i]? = some c →
        gh1.list_head[i]? = some (c.item sz0) := by
  have h0 : gh0.cnt = 0 ∧ gh0.list_head = [] := by
    cases base with
    | none => simp [gwinListCreate, _gwidgetCreate] at hcreate
    | some w =>
      simp only [gwinListCreate, _gwidgetCreate, Option.map_some', Option.some.injEq]
        at hcreate
      subst hcreate
      exact ⟨rfl, rfl⟩
  refine ⟨{ gh0 with list_head := gh0.list_head ++ calls.map (AddItemCall.item sz0),
                      cnt := gh0.cnt + calls.length }, ?_, ?_, ?_, ?_, ?_⟩
  · rw [addItems_eq sz0 calls gh0 hok, h0.1]
    simp
  · simp [h0.1]
  · simp [h0.2]
  · simp [h0.2]
  · intro i c hc
    simp [h0.2, hc]

set_option maxRecDepth 8192 in
/-- C3, an instance: "Alpha", "Beta" and "Gamma" added, with the copy flag, to a fresh
list: the indices are 0, 1, 2 and the count is 3. -/
theorem gwinListAddItem_returns_indices_witness :
    ((gwinListCreate 64 (some (sampleList threeItems)) true).1 = some freshList ∧
      ∀ c ∈ threeCalls, c.succeeds 12) ∧
    ∃ gh1, addItems 12 threeCalls freshList = some ([0, 1, 2], gh1) ∧ gh1.cnt = 3 ∧
      gh1.list_head = [⟨32, 0, 0, 44⟩, ⟨64, 0, 0, 76⟩, ⟨96, 0, 0, 108⟩] := by
  have h1 : (gwinListCreate 64 (some (sampleList threeItems)) true).1 = some freshList := by
    decide
  have h2 : ∀ c ∈ threeCalls, c.succeeds 12 := by
    intro c hc
    simp only [threeCalls, List.mem_cons, List.mem_singleton, List.not_mem_nil, or_false]
      at hc
    rcases hc with rfl | rfl | rfl
    · exact ⟨[65, 108, 112, 104, 97], by decide, by decide, by decide⟩
    · exact ⟨[66, 101, 116, 97], by decide, by decide, by decide⟩
    · exact ⟨[71, 97, 109, 109, 97], by decide, by decide, by decide⟩
  refine ⟨⟨h1, h2⟩, ?_⟩
  obtain ⟨gh1, h3, h4, _, h5, _⟩ :=
    gwinListAddItem_returns_indices 12 64 (some (sampleList threeItems)) true freshList
      threeCalls h1 h2
  have hr : (List.range threeCalls.length).map (fun (i : Nat) => (i : Int)) = [0, 1, 2] := by
    decide
  rw [hr] at h3
  exact ⟨gh1, h3, h4.trans (by decide), h5.trans (by decide)⟩

/-- C4: in every state reachable from `gwinListCreate` by calls of `gwinListAddItem`
(whether the allocation succeeds or fails), pointer-down events and calls of
`gwinListGetSelected`, the field `cnt` is the number of items on the queue. -/
theorem cnt_eq_queue_length (F sz0 listVMT : Nat) (gh : GListObject)
    (h : Reachable F sz0 listVMT gh) : gh.cnt = gh.list_head.length := by
  induction h with
  | create base pInit_show gh hcreate =>
    cases base with
    | none => simp [gwinListCreate, _gwidgetCreate] at hcreate
    | some w =>
      simp only [gwinListCreate, _gwidgetCreate, Option.map_some', Option.some.injEq]
        at hcreate
      subst hcreate
      simp [gfxQueueASyncInit, gwinSetVisible]
  | addItem gh gfxAlloc m item_name useAlloc r _ hadd ih =>
    rcases gwinListAddItem_cases sz0 gfxAlloc m gh item_name useAlloc r hadd with
      ⟨_, hgh, _⟩ | ⟨item, _, _, _, hgh⟩
    · rw [hgh]
      exact ih
    · rw [hgh]
      simp [ih]
  | mouseDown gh fontHeight listeners x y gh1 calls _ hmd ih =>
    have hh : item_height fontHeight ≠ 0 := by
      intro h0
      simp [MouseDown, h0] at hmd
    rw [MouseDown_eq F fontHeight listeners gh x y hh] at hmd
    simp only [Option.some.injEq, Prod.mk.injEq] at hmd
    rw [← hmd.1]
    simp [selectLoop_length, ih]
  | getSelected gh _ ih =>
    have : (gwinListGetSelected F listVMT gh).2 = gh := by
      unfold gwinListGetSelected
      split <;> rfl
    rw [this]
    exact ih

set_option maxRecDepth 8192 in
/-- C4, an instance: a list is created, an allocation fails, an item is added, and a
pointer-down selects it. -/
theorem cnt_eq_queue_length_witness :
    Reachable 4096 12 64
      { self := 512, vmt := 64, x := 0, y := 0, width := 100, height := 60,
        visible := true, cnt := 1, list_head := [⟨32, 16384, 0, 1⟩] } ∧
    ((1 : Int) = ([⟨32, 16384, 0, 1⟩] : List ListItem).length) := by
  have h0 : Reachable 4096 12 64 freshList :=
    Reachable.create (some (sampleList threeItems)) true freshList (by decide)
  have h1 : Reachable 4096 12 64 freshList :=
    Reachable.addItem freshList (fun _ => 0) sampleMem 1 true
      { ret := -1, gh := freshList, mem := sampleMem, calls := [Call.gfxAlloc 18] }
      h0 (by decide)
  have h2 := Reachable.addItem freshList (fun _ => 32) sampleMem 1 false
      { ret := 0,
        gh := { self := 512, vmt := 64, x := 0, y := 0, width := 100, height := 60,
                visible := true, cnt := 1, list_head := [⟨32, 0, 0, 1⟩] },
        mem := sampleMem, calls := [Call.gfxAlloc 12] }
      h1 (by decide)
  have h3 := Reachable.mouseDown _ 10 [] 5 5
      { self := 512, vmt := 64, x := 0, y := 0, width := 100, height := 60,
        visible := true, cnt := 1, list_head := [⟨32, 16384, 0, 1⟩] }
      [Call._gwidgetRedraw 512] h2 (by decide)
  exact ⟨h3, cnt_eq_queue_length 4096 12 64 _ h3⟩

/-- C5: for a list widget with `N` items, `gwinListGetSelected` returns `r` with
`-1 ≤ r < N`; `r ≥ 0` exactly when some item is selected, and then item `r` is selected
and no item before it is; `r = -1` exactly when no item is selected; the widget and its
items are as before the call. -/
theorem gwinListGetSelected_first_selected (F listVMT : Nat) (gh : GListObject)
    (hvmt : gh.vmt = listVMT) :
    -1 ≤ (gwinListGetSelected F listVMT gh).1 ∧
    (gwinListGetSelected F listVMT gh).1 < gh.list_head.length ∧
    (0 ≤ (gwinListGetSelected F listVMT gh).1 ↔
      ∃ li ∈ gh.list_head, isSelected F li = true) ∧
    (0 ≤ (gwinListGetSelected F listVMT gh).1 →
      ∃ li, gh.list_head[((gwinListGetSelected F listVMT gh).1).toNat]? = some li ∧
        isSelected F li = true ∧
        ∀ j lj, j < ((gwinListGetSelected F listVMT gh).1).toNat →
          gh.list_head[j]? = some lj → isSelected F lj = false) ∧
    ((gwinListGetSelected F listVMT gh).1 = -1 ↔
      ∀ li ∈ gh.list_head, isSelected F li = false) ∧
    (gwinListGetSelected F listVMT gh).2 = gh := by
  have hr : (gwinListGetSelected F listVMT gh).1 =
      getSelectedLoop (GLIST_FLG_SELECTED F) gh.list_head 0 := by
    simp [gwinListGetSelected, hvmt]
  have hs : (gwinListGetSelected F listVMT gh).2 = gh := by
    simp [gwinListGetSelected, hvmt]
  rw [hr]
  rcases getSelectedLoop_cases (GLIST_FLG_SELECTED F) gh.list_head 0 with
    ⟨h1, h2⟩ | ⟨j, li, h1, h2, h3, h4⟩
  · rw [h1]
    refine ⟨le_refl _, ?_, ?_, ?_, ?_, hs⟩
    · have : (0 : Int) ≤ (gh.list_head.length : Int) := Int.natCast_nonneg _
      omega
    · constructor
      · intro h; omega
      · rintro ⟨li, hli, hsel⟩
        have := h2 li hli
        simp [isSelected, this] at hsel
    · intro h; omega
    · constructor
      · intro _ li hli
        exact h2 li hli
      · intro _; rfl
  · have hjl : j < gh.list_head.length := (List.getElem?_eq_some_iff.mp h1).1
    have hmem : li ∈ gh.list_head := List.getElem?_mem h1
    rw [h4]
    simp only [zero_add]
    refine ⟨by omega, by omega, ?_, ?_, ?_, hs⟩
    · constructor
      · intro _; exact ⟨li, hmem, h2⟩
      · intro _; omega
    · intro _
      refine ⟨li, by simpa using h1, h2, ?_⟩
      intro j1 lj hj1 hget
      exact h3 j1 lj (by simpa using hj1) hget
    · constructor
      · intro h; omega
      · intro h
        have := h li hmem
        simp [isSelected, h2] at this

/-- C5, an instance: of three items the second and the third are selected; the call
returns 1. -/
theorem gwinListGetSelected_first_selected_witness :
    (sampleList lastTwoSelected).vmt = 64 ∧
    (gwinListGetSelected 4096 64
      (sampleList lastTwoSelected)).1 = 1 ∧
    (0 ≤ (gwinListGetSelected 4096 64
      (sampleList lastTwoSelected)).1 ↔
      ∃ li ∈ (sampleList
        lastTwoSelected).list_head,
        isSelected 4096 li = true) :=
  ⟨rfl, by decide,
    (gwinListGetSelected_first_selected 4096 64
      (sampleList lastTwoSelected)
      rfl).2.2.1⟩

/-- C6: with the copy flag set and a text `s` at `p`, `gwinListAddItem` asks the allocator
once, for `sizeof(ListItem) + strlen(s) + 1` bytes; it copies `s` and its terminator to the
bytes that follow the record, and the text pointer of the new item is the address of
those bytes, not `p`; the call changes no other byte.  The string read at the text
pointer is `s`, and stays `s` however the bytes of the caller's buffer change afterwards.
The block allocated lies inside memory and apart from the caller's buffer. -/
theorem gwinListAddItem_copies_text (sz0 : Nat) (gfxAlloc : Nat → Nat) (m : Mem)
    (gh : GListObject) (p : Nat) (s : List Nat)
    (hs : cstr m p = some s)
    (ha : gfxAlloc (sz0 + s.length + 1) ≠ 0)
    (hin : gfxAlloc (sz0 + s.length + 1) + sz0 + s.length + 1 ≤ m.length)
    (hdis : gfxAlloc (sz0 + s.length + 1) + sz0 + s.length + 1 ≤ p ∨
      p + s.length + 1 ≤ gfxAlloc (sz0 + s.length + 1)) :
    ∃ (r : AddItemResult) (item : ListItem),
      gwinListAddItem sz0 gfxAlloc m gh p true = some r ∧
      strlen m p = some s.length ∧
      r.calls = [Call.gfxAlloc (sz0 + s.length + 1), Call.strcpy (item.addr + sz0) p] ∧
      r.gh.list_head = gh.list_head ++ [item] ∧
      item.addr = gfxAlloc (sz0 + s.length + 1) ∧
      item.text = item.addr + sz0 ∧
      item.text ≠ p ∧
      (∀ i, i < s.length + 1 → r.mem[item.text + i]? = (s ++ [0])[i]?) ∧
      (∀ a, ¬ (item.text ≤ a ∧ a < item.text + s.length + 1) → r.mem[a]? = m[a]?) ∧
      cstr r.mem item.text = some s ∧
      ∀ m2 : Mem, (∀ a, ¬ (p ≤ a ∧ a < p + s.length + 1) → m2[a]? = r.mem[a]?) →
        cstr m2 item.text = some s := by
  obtain ⟨m1, hst, hadd⟩ := gwinListAddItem_copy_eq sz0 gfxAlloc m gh p s hs ha hin
  have hnz : ∀ b ∈ s, b ≠ 0 := ((cstr_eq_some_iff m p s).mp hs).2
  have hbytes : ∀ i, i < s.length + 1 →
      m1[gfxAlloc (sz0 + s.length + 1) + sz0 + i]? = (s ++ [0])[i]? := by
    intro i hi
    have hlen : (s ++ [0]).length = s.length + 1 := by simp
    have hc : gfxAlloc (sz0 + s.length + 1) + sz0 ≤ gfxAlloc (sz0 + s.length + 1) + sz0 + i ∧
        gfxAlloc (sz0 + s.length + 1) + sz0 + i <
          gfxAlloc (sz0 + s.length + 1) + sz0 + (s ++ [0]).length := by
      rw [hlen]
      omega
    rw [storeBytes_getElem? m m1 _ _ hst, if_pos hc]
    congr 1
    omega
  have hc1 : cstr m1 (gfxAlloc (sz0 + s.length + 1) + sz0) = some s :=
    cstr_storeBytes m m1 _ s hnz hst
  refine ⟨_, ⟨gfxAlloc (sz0 + s.length + 1), 0, 0, gfxAlloc (sz0 + s.length + 1) + sz0⟩,
    hadd, by simp [strlen, hs], rfl, rfl, rfl, rfl, ?_, hbytes, ?_, hc1, ?_⟩
  · show gfxAlloc (sz0 + s.length + 1) + sz0 ≠ p
    omega
  · intro a hout
    dsimp only at hout
    have hlen : (s ++ [0]).length = s.length + 1 := by simp
    have hc : ¬ (gfxAlloc (sz0 + s.length + 1) + sz0 ≤ a ∧
        a < gfxAlloc (sz0 + s.length + 1) + sz0 + (s ++ [0]).length) := by
      rw [hlen]
      intro h
      exact hout ⟨h.1, by omega⟩
    rw [storeBytes_getElem? m m1 _ _ hst, if_neg hc]
  · intro m2 hm2
    rw [cstr_iff_bytes]
    refine ⟨?_, hnz⟩
    intro i hi
    simp only [List.length_append, List.length_singleton] at hi
    dsimp only
    rw [hm2 _ (by omega)]
    exact hbytes i hi

set_option maxRecDepth 8192 in
/-- C6, an instance: "Alpha" at address 1 is added with the copy flag; 18 bytes are
asked for, the block is at 32, and the text of the item is at 44. -/
theorem gwinListAddItem_copies_text_witness :
    (cstr sampleMem 1 = some [65, 108, 112, 104, 97] ∧
      (32 : Nat) ≠ 0 ∧ 32 + 12 + 5 + 1 ≤ sampleMem.length ∧
      (32 + 12 + 5 + 1 ≤ 1 ∨ 1 + 5 + 1 ≤ 32)) ∧
    ∃ (r : AddItemResult),
      gwinListAddItem 12 (fun _ => 32) sampleMem freshList 1 true = some r ∧
      r.calls = [Call.gfxAlloc 18, Call.strcpy 44 1] ∧
      r.gh.list_head = [⟨32, 0, 0, 44⟩] ∧
      cstr r.mem 44 = some [65, 108, 112, 104, 97] ∧
      ∀ m2 : Mem, (∀ a, ¬ (1 ≤ a ∧ a < 1 + 5 + 1) → m2[a]? = r.mem[a]?) →
        cstr m2 44 = some [65, 108, 112, 104, 97] := by
  refine ⟨⟨by decide, by decide, by decide, by decide⟩, ?_⟩
  obtain ⟨r, item, h1, _, h3, h4, h5, h6, _, _, _, h10, h11⟩ :=
    gwinListAddItem_copies_text 12 (fun _ => 32) sampleMem freshList 1
      [65, 108, 112, 104, 97] (by decide) (by decide) (by decide) (by decide)
  have h5a : item.addr = 32 := h5
  have h6a : item.text = 44 := by rw [h6, h5a]
  have hitem : item = ⟨32, 0, 0, 44⟩ := by
    have := gwinListAddItem_copy_eq 12 (fun _ => 32) sampleMem freshList 1
      [65, 108, 112, 104, 97] (by decide) (by decide) (by decide)
    obtain ⟨m1, _, hadd⟩ := this
    rw [hadd] at h1
    simp only [Option.some.injEq] at h1
    rw [← h1] at h4
    simpa [freshList] using h4.symm
  rw [h5a] at h3
  rw [h6a] at h10 h11
  rw [hitem] at h4
  exact ⟨r, h1, h3, h4, h10, h11⟩

/-- C7: with the copy flag clear, `gwinListAddItem` asks the allocator for
`sizeof(ListItem)` bytes and makes no other call, leaves memory as it is (no copy of the
text), and, when the allocation succeeds, puts on the queue an item whose text pointer is
the pointer `p` it was given. -/
theorem gwinListAddItem_keeps_pointer (sz0 : Nat) (gfxAlloc : Nat → Nat) (m : Mem)
    (gh : GListObject) (p : Nat) :
    ∃ r : AddItemResult,
      gwinListAddItem sz0 gfxAlloc m gh p false = some r ∧
      r.calls = [Call.gfxAlloc sz0] ∧
      r.mem = m ∧
      (gfxAlloc sz0 ≠ 0 →
        r.ret = gh.cnt ∧
        r.gh.list_head =
          gh.list_head ++ [{ addr := gfxAlloc sz0, flags := 0, param := 0, text := p }] ∧
        ∀ item, r.gh.list_head.getLast? = some item → item.text = p) := by
  by_cases ha : gfxAlloc sz0 = 0
  · refine ⟨{ ret := -1, gh := gh, mem := m, calls := [Call.gfxAlloc sz0] }, ?_, rfl, rfl,
      fun h => absurd ha h⟩
    simp [gwinListAddItem, ha]
  · refine ⟨_, gwinListAddItem_nocopy_eq sz0 gfxAlloc m gh p ha, rfl, rfl, fun _ => ?_⟩
    refine ⟨rfl, rfl, ?_⟩
    intro item hitem
    simp at hitem
    rw [← hitem]

/-- C7, an instance: the text at address 7 is added without the copy flag; 12 bytes are
asked for and the item points to address 7. -/
theorem gwinListAddItem_keeps_pointer_witness :
    (32 : Nat) ≠ 0 ∧
    ∃ r : AddItemResult,
      gwinListAddItem 12 (fun _ => 32) sampleMem freshList 7 false = some r ∧
      r.calls = [Call.gfxAlloc 12] ∧ r.mem = sampleMem ∧
      r.gh.list_head = [⟨32, 0, 0, 7⟩] := by
  refine ⟨by decide, ?_⟩
  obtain ⟨r, h1, h2, h3, h4⟩ :=
    gwinListAddItem_keeps_pointer 12 (fun _ => 32) sampleMem freshList 7
  exact ⟨r, h1, h2, h3, (h4 (by decide)).2.1⟩

/-- C8: `_destroy` on a list with `N` items takes every item off the queue and frees
each item record, in queue order, one `gfxFree` per item whatever its flags and text;
`_gwidgetDestroy` is called once, as the last call, after the `N` frees, and the queue is
empty at that point.  A record is freed as many times as it is on the queue, hence
exactly once when the records are distinct. -/
theorem destroy_frees_every_item (gh : GListObject) :
    (_destroy gh).1 = { gh with list_head := [] } ∧
    (_destroy gh).2 =
      gh.list_head.map (fun li => Call.gfxFree li.addr) ++ [Call._gwidgetDestroy gh.self] ∧
    (_destroy gh).2.length = gh.list_head.length + 1 ∧
    (∀ (i : Nat) (li : ListItem), gh.list_head[i]? = some li →
      (_destroy gh).2[i]? = some (Call.gfxFree li.addr)) ∧
    (_destroy gh).2[gh.list_head.length]? = some (Call._gwidgetDestroy gh.self) ∧
    (∀ g, (_destroy gh).2.count (Call._gwidgetDestroy g) = if g = gh.self then 1 else 0) ∧
    (∀ p, (_destroy gh).2.count (Call.gfxFree p) =
      (gh.list_head.map (fun li => li.addr)).count p) ∧
    ((gh.list_head.map (fun li => li.addr)).Nodup →
      ∀ li ∈ gh.list_head, (_destroy gh).2.count (Call.gfxFree li.addr) = 1) := by
  have h2 : (_destroy gh).2 =
      gh.list_head.map (fun li => Call.gfxFree li.addr) ++ [Call._gwidgetDestroy gh.self] := by
    simp [_destroy, destroyLoop_eq]
  have hcount : ∀ p, (_destroy gh).2.count (Call.gfxFree p) =
      (gh.list_head.map (fun li => li.addr)).count p := by
    intro p
    rw [h2, List.count_append, count_gfxFree_map]
    simp [List.count_cons]
  refine ⟨by simp [_destroy, destroyLoop_eq], h2, by simp [h2], ?_, ?_, ?_, hcount, ?_⟩
  · intro i li hi
    have hil : i < gh.list_head.length := (List.getElem?_eq_some_iff.mp hi).1
    rw [h2, List.getElem?_append_left (by simpa using hil), List.getElem?_map, hi]
    rfl
  · rw [h2, List.getElem?_append_right (by simp)]
    simp
  · intro g
    rw [h2, List.count_append, count_gwidgetDestroy_map]
    by_cases hg : g = gh.self
    · simp [hg]
    · have : ¬ (gh.self = g) := fun h => hg h.symm
      simp [List.count_cons, hg, this]
  · intro hnd li hli
    rw [hcount]
    exact List.count_eq_one_of_mem hnd (List.mem_map.mpr ⟨li, hli, rfl⟩)

/-- C8, an instance: the three-item list; three frees, then the generic teardown. -/
theorem destroy_frees_every_item_witness :
    ((sampleList threeItems).list_head.map (fun li => li.addr)).Nodup ∧
    (_destroy (sampleList threeItems)).2 =
      [Call.gfxFree 4096, Call.gfxFree 4128, Call.gfxFree 4160, Call._gwidgetDestroy 512] ∧
    ∀ li ∈ (sampleList threeItems).list_head,
      (_destroy (sampleList threeItems)).2.count (Call.gfxFree li.addr) = 1 :=
  ⟨by decide, by decide,
    (destroy_frees_every_item (sampleList threeItems)).2.2.2.2.2.2.2 (by decide)⟩

/-- C9: on a list of `N` items, after a pointer-down whose computed row index is `≥ N`
no item is selected and `gwinListGetSelected` returns -1; the redraw is requested and
the event, carrying the computed index, goes to every listener with a free buffer. -/
theorem MouseDown_past_the_end (F listVMT : Nat) (fontHeight : Int)
    (listeners : List GSourceListener) (gw : GListObject) (x y : Int)
    (hvmt : gw.vmt = listVMT) (hh : item_height fontHeight ≠ 0)
    (hk : gw.list_head.length ≤ item_id fontHeight gw.y y) :
    ∃ gw1 calls,
      MouseDown F fontHeight listeners gw x y = some (gw1, calls) ∧
      gw1.list_head.length = gw.list_head.length ∧
      (∀ li ∈ gw1.list_head, isSelected F li = false) ∧
      (gwinListGetSelected F listVMT gw1).1 = -1 ∧
      calls = Call._gwidgetRedraw gw.self ::
        (listeners.filter (fun l => l.hasBuffer)).map
          (fun l => Call.geventSendEvent l.psl
            (listEvent gw (item_id fontHeight gw.y y))) := by
  refine ⟨_, _, MouseDown_eq F fontHeight listeners gw x y hh, ?_, ?_, ?_, rfl⟩
  · exact selectLoop_length _ _ _ _
  · exact selectLoop_unselected F _ gw.list_head hk (item_id_lt _ _ _)
  · simp only [gwinListGetSelected, hvmt, ne_eq, not_true_eq_false, if_false]
    exact getSelectedLoop_none _ _ 0
      (selectLoop_unselected F _ gw.list_head hk (item_id_lt _ _ _))

/-- C9, an instance: three items of which the first is selected, font height 10, a
press at `y = 40` (row 3), one listener with a free buffer. -/
theorem MouseDown_past_the_end_witness :
    ((sampleList firstSelected).vmt = 64 ∧
      item_height 10 ≠ 0 ∧
      (sampleList firstSelected).list_head.length
        ≤ item_id 10
          (sampleList firstSelected).y 40) ∧
    ∃ gw1 calls,
      MouseDown 4096 10 [⟨7, true⟩]
        (sampleList firstSelected) 5 40
        = some (gw1, calls) ∧
      (∀ li ∈ gw1.list_head, isSelected 4096 li = false) ∧
      (gwinListGetSelected 4096 64 gw1).1 = -1 ∧
      calls = [Call._gwidgetRedraw 512,
        Call.geventSendEvent 7 ⟨GEventType.GEVENT_GWIN_LIST, 512, 3⟩] := by
  refine ⟨⟨rfl, by decide, by decide⟩, ?_⟩
  obtain ⟨gw1, calls, h1, _, h3, h4, h5⟩ :=
    MouseDown_past_the_end 4096 64 10 [⟨7, true⟩]
      (sampleList firstSelected) 5 40
      rfl (by decide) (by decide)
  exact ⟨gw1, calls, h1, h3, h4, h5.trans (by decide)⟩

/-- C10: `gwinListGetSelected` returns -1 for a handle whose table pointer is not the
list table, whatever the rest of the object holds, for a list widget whose queue is
empty, and for a list just returned by `gwinListCreate`. -/
theorem gwinListGetSelected_not_found (F listVMT : Nat) (gh : GListObject)
    (h : gh.vmt ≠ listVMT ∨ gh.list_head = [] ∨
      ∃ base pInit_show, (gwinListCreate listVMT base pInit_show).1 = some gh) :
    (gwinListGetSelected F listVMT gh).1 = -1 := by
  rcases h with h | h | ⟨base, pInit_show, h⟩
  · simp [gwinListGetSelected, h]
  · by_cases hv : gh.vmt = listVMT
    · simp [gwinListGetSelected, hv, h, getSelectedLoop]
    · simp [gwinListGetSelected, hv]
  · cases base with
    | none => simp [gwinListCreate, _gwidgetCreate] at h
    | some w =>
      simp only [gwinListCreate, _gwidgetCreate, Option.map_some', Option.some.injEq] at h
      subst h
      simp [gwinListGetSelected, gfxQueueASyncInit, getSelectedLoop]

/-- C10, instances: a three-item object with another table pointer whose items are all
selected, a list widget with an empty queue, and a freshly created list. -/
theorem gwinListGetSelected_not_found_witness :
    (gwinListGetSelected 4096 65
      (sampleList allSelected)).1
      = -1 ∧
    (gwinListGetSelected 4096 64 (sampleList [])).1 = -1 ∧
    ∀ gh, (gwinListCreate 64 (some (sampleList threeItems)) true).1 = some gh →
      (gwinListGetSelected 4096 64 gh).1 = -1 :=
  ⟨gwinListGetSelected_not_found 4096 65 _ (Or.inl (by decide)),
    gwinListGetSelected_not_found 4096 64 _ (Or.inr (Or.inl rfl)),
    fun gh hgh => gwinListGetSelected_not_found 4096 64 gh (Or.inr (Or.inr ⟨_, _, hgh⟩))⟩

/-- C11: when the allocation inside `gwinListAddItem` fails, the call returns -1 and the
widget (queue, count, and every item with its flags, parameter and text) and the memory
are as before the call; a following successful call returns the index it returns
without the failed call, the old count. -/
theorem gwinListAddItem_failure_changes_nothing (sz0 : Nat) (c : AddItemCall)
    (gh : GListObject) (hc : c.fails sz0) :
    ∃ r : AddItemResult,
      gwinListAddItem sz0 c.gfxAlloc c.mem gh c.item_name c.useAlloc = some r ∧
      r.ret = -1 ∧ r.gh = gh ∧ r.gh.list_head = gh.list_head ∧ r.gh.cnt = gh.cnt ∧
      r.mem = c.mem ∧
      ∀ c2 : AddItemCall, c2.succeeds sz0 →
        ∃ r2 : AddItemResult,
          gwinListAddItem sz0 c2.gfxAlloc c2.mem r.gh c2.item_name c2.useAlloc = some r2 ∧
          gwinListAddItem sz0 c2.gfxAlloc c2.mem gh c2.item_name c2.useAlloc = some r2 ∧
          r2.ret = gh.cnt := by
  obtain ⟨sz, h⟩ := gwinListAddItem_fail_eq sz0 c gh hc
  refine ⟨_, h, rfl, rfl, rfl, rfl, rfl, ?_⟩
  intro c2 hc2
  obtain ⟨r2, h2, hret, _⟩ := AddItemCall.step sz0 c2 gh hc2
  exact ⟨r2, h2, h2, hret⟩

set_option maxRecDepth 8192 in
/-- C11, an instance: on the three-item list the allocation for a copy of "Alpha" fails;
the call returns -1, and the next call, which succeeds, returns 3. -/
theorem gwinListAddItem_failure_changes_nothing_witness :
    AddItemCall.fails 12 ⟨fun _ => 0, sampleMem, 1, true⟩ ∧
    AddItemCall.succeeds 12 ⟨fun _ => 32, sampleMem, 7, false⟩ ∧
    ∃ r r2 : AddItemResult,
      gwinListAddItem 12 (fun _ => 0) sampleMem (sampleList threeItems) 1 true = some r ∧
      r.ret = -1 ∧ r.gh = sampleList threeItems ∧
      gwinListAddItem 12 (fun _ => 32) sampleMem r.gh 7 false = some r2 ∧ r2.ret = 3 := by
  have h1 : AddItemCall.fails 12 ⟨fun _ => 0, sampleMem, 1, true⟩ :=
    ⟨[65, 108, 112, 104, 97], by decide, rfl⟩
  have h2 : AddItemCall.succeeds 12 ⟨fun _ => 32, sampleMem, 7, false⟩ := by
    show (32 : Nat) ≠ 0
    decide
  refine ⟨h1, h2, ?_⟩
  obtain ⟨r, hr, hret, hgh, _, _, _, hnext⟩ :=
    gwinListAddItem_failure_changes_nothing 12 ⟨fun _ => 0, sampleMem, 1, true⟩
      (sampleList threeItems) h1
  obtain ⟨r2, hr2, _, hret2⟩ := hnext ⟨fun _ => 32, sampleMem, 7, false⟩ h2
  exact ⟨r, r2, hr, hret, hgh, hr2, hret2.trans (by decide)⟩

/-- C12: the item a successful `gwinListAddItem` creates has flag word zero (so it is
not selected) and parameter zero, for either value of the copy flag; the items already
on the queue are unchanged and keep their places; `gwinListGetSelected` returns the same
value after the call as before it. -/
theorem gwinListAddItem_new_item_unselected (F listVMT sz0 : Nat) (c : AddItemCall)
    (gh : GListObject) (hc : c.succeeds sz0) :
    ∃ (r : AddItemResult) (item : ListItem),
      gwinListAddItem sz0 c.gfxAlloc c.mem gh c.item_name c.useAlloc = some r ∧
      r.gh.list_head = gh.list_head ++ [item] ∧
      item.flags = 0 ∧ item.param = 0 ∧ isSelected F item = false ∧
      (∀ (i : Nat) (li : ListItem), gh.list_head[i]? = some li →
        r.gh.list_head[i]? = some li) ∧
      (gwinListGetSelected F listVMT r.gh).1 = (gwinListGetSelected F listVMT gh).1 := by
  obtain ⟨r, hr, _, hgh⟩ := AddItemCall.step sz0 c gh hc
  have hfl := AddItemCall.item_flags sz0 c
  have hsel : isSelected F (c.item sz0) = false := by
    unfold isSelected
    rw [hfl.1]
    exact flagTest_zero _
  refine ⟨r, c.item sz0, hr, by rw [hgh], hfl.1, hfl.2, hsel, ?_, ?_⟩
  · intro i li hi
    have hil : i < gh.list_head.length := (List.getElem?_eq_some_iff.mp hi).1
    rw [hgh]
    show (gh.list_head ++ [c.item sz0])[i]? = some li
    rw [List.getElem?_append_left hil, hi]
  · rw [hgh]
    unfold gwinListGetSelected
    by_cases hv : gh.vmt = listVMT
    · simp only [hv, ne_eq, not_true_eq_false, if_false]
      exact getSelectedLoop_append_unselected _ _ hsel _ 0
    · simp [hv]

set_option maxRecDepth 8192 in
/-- C12, an instance: "Beta" is added with the copy flag to a list whose last two items
are selected; `gwinListGetSelected` returns 1 before and after. -/
theorem gwinListAddItem_new_item_unselected_witness :
    AddItemCall.succeeds 12 ⟨fun _ => 64, sampleMem, 7, true⟩ ∧
    ∃ (r : AddItemResult),
      gwinListAddItem 12 (fun _ => 64) sampleMem (sampleList lastTwoSelected) 7 true
        = some r ∧
      (gwinListGetSelected 4096 64 r.gh).1 = 1 ∧
      (gwinListGetSelected 4096 64 (sampleList lastTwoSelected)).1 = 1 := by
  have h1 : AddItemCall.succeeds 12 ⟨fun _ => 64, sampleMem, 7, true⟩ :=
    ⟨[66, 101, 116, 97], by decide, by decide, by decide⟩
  refine ⟨h1, ?_⟩
  obtain ⟨r, _, hr, _, _, _, _, _, hget⟩ :=
    gwinListAddItem_new_item_unselected 4096 64 12 ⟨fun _ => 64, sampleMem, 7, true⟩
      (sampleList lastTwoSelected) h1
  have h2 : (gwinListGetSelected 4096 64 (sampleList lastTwoSelected)).1 = 1 := by decide
  exact ⟨r, hr, hget.trans h2, h2⟩

/-- C13: `gwinListCreate` returns a null handle exactly when the generic creation fails,
and then makes no call at all (no queue is set up, visibility is not touched); otherwise
it returns the object of the generic creation, bound to the list table, with an empty
queue, `cnt = 0` and the visibility asked for in the init structure, through one call of
`gwinSetVisible`. -/
theorem gwinListCreate_result (listVMT : Nat) (base : Option GListObject)
    (pInit_show : Bool) :
    ((gwinListCreate listVMT base pInit_show).1 = none ↔
      _gwidgetCreate base listVMT = none) ∧
    (_gwidgetCreate base listVMT = none →
      gwinListCreate listVMT base pInit_show = (none, [])) ∧
    (∀ w : GListObject, _gwidgetCreate base listVMT = some w →
      gwinListCreate listVMT base pInit_show =
        (some { w with list_head := [], cnt := 0, visible := pInit_show },
          [Call.gwinSetVisible w.self pInit_show]) ∧
      w.vmt = listVMT) ∧
    (∀ gh : GListObject, (gwinListCreate listVMT base pInit_show).1 = some gh →
      gh.vmt = listVMT ∧ gh.list_head = [] ∧ gh.cnt = 0 ∧ gh.visible = pInit_show ∧
      ∃ w, base = some w ∧ gh.self = w.self ∧ gh.x = w.x ∧ gh.y = w.y ∧
        gh.width = w.width ∧ gh.height = w.height) := by
  cases base with
  | none =>
    refine ⟨by simp [gwinListCreate, _gwidgetCreate], fun _ => rfl, ?_, ?_⟩
    · intro w hw
      simp [_gwidgetCreate] at hw
    · intro gh hgh
      simp [gwinListCreate, _gwidgetCreate] at hgh
  | some b =>
    refine ⟨by simp [gwinListCreate, _gwidgetCreate], ?_, ?_, ?_⟩
    · intro h
      simp [_gwidgetCreate] at h
    · intro w hw
      simp only [_gwidgetCreate, Option.map_some', Option.some.injEq] at hw
      subst hw
      exact ⟨rfl, rfl⟩
    · intro gh hgh
      simp only [gwinListCreate, _gwidgetCreate, Option.map_some', Option.some.injEq] at hgh
      subst hgh
      exact ⟨rfl, rfl, rfl, rfl, b, rfl, rfl, rfl, rfl, rfl, rfl⟩

/-- C13, instances: the generic creation fails; the generic creation yields the object
of `sampleList threeItems` (whose queue and count fields hold whatever they held) and
the list is to be hidden. -/
theorem gwinListCreate_result_witness :
    gwinListCreate 64 none true = (none, []) ∧
    gwinListCreate 64 (some (sampleList threeItems)) false =
      (some { self := 512, vmt := 64, x := 0, y := 0, width := 100, height := 60,
              visible := false, cnt := 0, list_head := [] },
        [Call.gwinSetVisible 512 false]) :=
  ⟨(gwinListCreate_result 64 none true).2.1 rfl,
    ((gwinListCreate_result 64 (some (sampleList threeItems)) false).2.2.1
      { sampleList threeItems with vmt := 64 } rfl).1⟩

/-- C14: `sendListEvent` sends, in the order of the registered listeners, one event to
each listener that has a free event buffer, with kind `GEVENT_GWIN_LIST`, the widget
handle as source and the given item index; a listener without a free buffer gets
nothing, and the listeners after it are served as if it were not registered. -/
theorem sendListEvent_delivers (listeners : List GSourceListener) (gw : GListObject)
    (item : Int) :
    sendListEvent listeners gw item =
      (listeners.filter (fun l => l.hasBuffer)).map
        (fun l => Call.geventSendEvent l.psl
          { type := GEventType.GEVENT_GWIN_LIST, list := gw.self, item := item }) ∧
    (sendListEvent listeners gw item).length = listeners.countP (fun l => l.hasBuffer) ∧
    (∀ (psl : Nat) (pe : GEventGWinList),
      Call.geventSendEvent psl pe ∈ sendListEvent listeners gw item →
      pe = { type := GEventType.GEVENT_GWIN_LIST, list := gw.self, item := item } ∧
      ∃ l ∈ listeners, l.psl = psl ∧ l.hasBuffer = true) ∧
    (∀ psl : Nat,
      (sendListEvent listeners gw item).count
          (Call.geventSendEvent psl
            { type := GEventType.GEVENT_GWIN_LIST, list := gw.self, item := item }) =
        listeners.countP (fun l => l.hasBuffer && l.psl == psl)) ∧
    (∀ (before after : List GSourceListener) (l : GSourceListener),
      listeners = before ++ l :: after → l.hasBuffer = false →
      sendListEvent listeners gw item =
        sendListEvent before gw item ++ sendListEvent after gw item) := by
  have heq := sendListEvent_eq listeners gw item
  refine ⟨heq, ?_, ?_, ?_, ?_⟩
  · rw [heq, List.length_map, List.countP_eq_length_filter]
  · intro psl pe hmem
    rw [heq] at hmem
    obtain ⟨l, hl, hc⟩ := List.mem_map.mp hmem
    simp only [Call.geventSendEvent.injEq] at hc
    obtain ⟨hl1, hl2⟩ := List.mem_filter.mp hl
    exact ⟨hc.2.symm, l, hl1, hc.1, hl2⟩
  · intro psl
    rw [heq]
    have := count_geventSendEvent_map psl (listEvent gw item)
      (listeners.filter (fun l => l.hasBuffer))
    rw [List.countP_filter] at this
    simpa [listEvent, Bool.and_comm] using this
  · intro before after l hls hl
    rw [hls, sendListEvent_append]
    simp [sendListEvent, hl]

/-- C14, an instance: of three listeners the second has no free buffer; the first and
the third get the event for item 2. -/
theorem sendListEvent_delivers_witness :
    sendListEvent [⟨7, true⟩, ⟨8, false⟩, ⟨9, true⟩] (sampleList threeItems) 2 =
      [Call.geventSendEvent 7 ⟨GEventType.GEVENT_GWIN_LIST, 512, 2⟩,
        Call.geventSendEvent 9 ⟨GEventType.GEVENT_GWIN_LIST, 512, 2⟩] ∧
    sendListEvent [⟨7, true⟩, ⟨8, false⟩, ⟨9, true⟩] (sampleList threeItems) 2 =
      sendListEvent [⟨7, true⟩] (sampleList threeItems) 2 ++
        sendListEvent [⟨9, true⟩] (sampleList threeItems) 2 :=
  ⟨(sendListEvent_delivers [⟨7, true⟩, ⟨8, false⟩, ⟨9, true⟩]
      (sampleList threeItems) 2).1,
    (sendListEvent_delivers [⟨7, true⟩, ⟨8, false⟩, ⟨9, true⟩]
      (sampleList threeItems) 2).2.2.2.2 [⟨7, true⟩] [⟨9, true⟩] ⟨8, false⟩ rfl rfl⟩

/-- C15, amended: for a list of `N` items and a font line height `0 ≤ h ≤ 32767`, on a
widget whose `y`, `x + 3` and `width - 6` are 16-bit signed coordinates,
`gwinListDefaultDraw` issues, after the box, exactly `N` text-box draws, one per item in
queue order, each at left `x + 3` with width `width - 6` and height `h`, showing the text
of its item, Black on White for an unselected item and White on Black for a selected
one; the `i`-th is at top `y + 3 + i * (h + 4)` whenever that value is a 16-bit signed
coordinate (at most 32767). -/
theorem gwinListDefaultDraw_rows (F : Nat) (h : Int) (gw : GListObject)
    (h0 : 0 ≤ h) (h1 : h ≤ 32767) (hy : -32768 ≤ gw.y)
    (hx0 : -32768 ≤ gw.x + 3) (hx1 : gw.x + 3 ≤ 32767)
    (hw0 : -32768 ≤ gw.width - 6) (hw1 : gw.width - 6 ≤ 32767) :
    (gwinListDefaultDraw F h gw).length = gw.list_head.length + 1 ∧
    (gwinListDefaultDraw F h gw).tail.length = gw.list_head.length ∧
    (∀ c ∈ (gwinListDefaultDraw F h gw).tail, c.isRow = true) ∧
    (∀ (i : Nat) (li : ListItem), gw.list_head[i]? = some li →
      ∃ top : Int, (gwinListDefaultDraw F h gw)[i + 1]? =
        some (Call.gdispFillStringBox (gw.x + 3) top (gw.width - 6) h li.text
          (if isSelected F li then Color.White else Color.Black)
          (if isSelected F li then Color.Black else Color.White))) ∧
    (∀ (i : Nat) (li : ListItem), gw.list_head[i]? = some li →
      gw.y + 3 + (i : Int) * (h + 4) ≤ 32767 →
      (gwinListDefaultDraw F h gw)[i + 1]? =
        some (Call.gdispFillStringBox (gw.x + 3) (gw.y + 3 + (i : Int) * (h + 4))
          (gw.width - 6) h li.text
          (if isSelected F li then Color.White else Color.Black)
          (if isSelected F li then Color.Black else Color.White))) := by
  have hfh : ((toU16 h : Nat) : Int) = h := toU16_of_range h h0 (by omega)
  have hcx : toCoord (gw.x + 3) = gw.x + 3 := toCoord_of_range _ hx0 hx1
  have hcw : toCoord (gw.width - 6) = gw.width - 6 := toCoord_of_range _ hw0 hw1
  have hch : toCoord ((toU16 h : Nat) : Int) = h := by
    rw [hfh]
    exact toCoord_of_range _ (by omega) h1
  have hrow : ∀ (i : Nat) (li : ListItem), gw.list_head[i]? = some li →
      (gwinListDefaultDraw F h gw)[i + 1]? =
        some (Call.gdispFillStringBox (gw.x + 3)
          (toCoord (gw.y + 3 + (((i * (toU16 h + 4)) % 65536 : Nat) : Int)))
          (gw.width - 6) h li.text
          (if isSelected F li then Color.White else Color.Black)
          (if isSelected F li then Color.Black else Color.White)) := by
    intro i li hi
    rw [gwinListDefaultDraw_getElem?_succ, hi]
    simp only [Option.map_some', Option.some.injEq]
    unfold drawItem isSelected
    rw [hcx, hcw, hch]
    cases flagTest li.flags (GLIST_FLG_SELECTED F) <;> simp
  refine ⟨by simp [gwinListDefaultDraw, drawLoop_length],
    by simp [gwinListDefaultDraw, drawLoop_length], ?_, ?_, ?_⟩
  · intro c hc
    simp only [gwinListDefaultDraw, List.tail_cons] at hc
    exact drawLoop_isRow _ gw _ _ _ c hc
  · intro i li hi
    exact ⟨_, hrow i li hi⟩
  · intro i li hi htop
    rw [hrow i li hi]
    have hoff : (((i * (toU16 h + 4)) % 65536 : Nat) : Int) = ((i : Int) * (h + 4)) % 65536 := by
      push_cast
      rw [hfh]
    have hnn : (0 : Int) ≤ (i : Int) * (h + 4) :=
      mul_nonneg (Int.natCast_nonneg i) (by omega)
    rw [hoff]
    generalize (i : Int) * (h + 4) = t at hnn htop
    have ht : t % 65536 = t := Int.emod_eq_of_lt hnn (by omega)
    rw [ht, toCoord_of_range _ (by omega) htop]

/-- C15, an instance: the three-item list whose last two items are selected, font
height 10; the box is followed by three text boxes at `y = 3`, `17` and `31`. -/
theorem gwinListDefaultDraw_rows_witness :
    ((0 : Int) ≤ 10 ∧ (10 : Int) ≤ 32767 ∧ -32768 ≤ (sampleList lastTwoSelected).y ∧
      -32768 ≤ (sampleList lastTwoSelected).x + 3 ∧
      (sampleList lastTwoSelected).x + 3 ≤ 32767 ∧
      -32768 ≤ (sampleList lastTwoSelected).width - 6 ∧
      (sampleList lastTwoSelected).width - 6 ≤ 32767) ∧
    gwinListDefaultDraw 4096 10 (sampleList lastTwoSelected) =
      [Call.gdispDrawBox 0 0 100 60 Color.Black,
        Call.gdispFillStringBox 3 3 94 10 256 Color.Black Color.White,
        Call.gdispFillStringBox 3 17 94 10 256 Color.White Color.Black,
        Call.gdispFillStringBox 3 31 94 10 256 Color.White Color.Black] ∧
    (gwinListDefaultDraw 4096 10 (sampleList lastTwoSelected)).length =
      (sampleList lastTwoSelected).list_head.length + 1 :=
  ⟨⟨by decide, by decide, by decide, by decide, by decide, by decide, by decide⟩,
    by decide,
    (gwinListDefaultDraw_rows 4096 10 (sampleList lastTwoSelected) (by decide) (by decide)
      (by decide) (by decide) (by decide) (by decide) (by decide)).1⟩

/-- C15 as stated fails on a list of 4683 items with font height 10: the claim puts row
4682 at top `0 + 3 + 4682 * 14 = 65551`, which is no 16-bit coordinate; the 16-bit row
offset of `gwinListDefaultDraw` is `65548 - 65536 = 12` there, and the text box is drawn
at top 15. -/
theorem gwinListDefaultDraw_row_offset_wraps :
    (gwinListDefaultDraw 4096 10 (sampleList rowItems))[4682 + 1]? =
      some (Call.gdispFillStringBox 3 15 94 10 256 Color.Black Color.White) ∧
    (sampleList rowItems).list_head[4682]? = some ⟨79008, 0, 0, 256⟩ ∧
    (sampleList rowItems).y + 3 + 4682 * (10 + 4) = 65551 := by
  have hitem : (sampleList rowItems).list_head[4682]? = some ⟨79008, 0, 0, 256⟩ :=
    itemsFrom_getElem? 4683 4096 4682 (by norm_num)
  refine ⟨?_, hitem, by decide⟩
  rw [gwinListDefaultDraw_getElem?_succ, hitem]
  decide

/-- C16: the first graphics operation `gwinListDefaultDraw` issues is the call of
`gdispDrawBox` on the whole rectangle `(x, y, width, height)` of the widget, which is
the clear of that area; it is issued before any item row is rendered: every row draw
comes after it, and the calls after it are the `N` row draws and nothing else. -/
theorem gwinListDefaultDraw_clears_first (F : Nat) (h : Int) (gw : GListObject) :
    (gwinListDefaultDraw F h gw)[0]? =
      some (Call.gdispDrawBox gw.x gw.y gw.width gw.height Color.Black) ∧
    ((gwinListDefaultDraw F h gw)[0]?).bind Call.clearedArea =
      some (gw.x, gw.y, gw.width, gw.height) ∧
    (∀ (j : Nat) (c : Call), (gwinListDefaultDraw F h gw)[j]? = some c →
      c.isRow = true → 0 < j) ∧
    (∀ (j : Nat) (c : Call), 0 < j → (gwinListDefaultDraw F h gw)[j]? = some c →
      c.isRow = true ∧ c.clearedArea = none) ∧
    (gwinListDefaultDraw F h gw).tail.length = gw.list_head.length := by
  have h0 : (gwinListDefaultDraw F h gw)[0]? =
      some (Call.gdispDrawBox gw.x gw.y gw.width gw.height Color.Black) := by
    simp [gwinListDefaultDraw]
  refine ⟨h0, by rw [h0]; rfl, ?_, ?_, by simp [gwinListDefaultDraw, drawLoop_length]⟩
  · intro j c hj hrow
    cases j with
    | zero =>
      rw [h0] at hj
      simp only [Option.some.injEq] at hj
      rw [← hj] at hrow
      simp [Call.isRow] at hrow
    | succ j => omega
  · intro j c hj hc
    cases j with
    | zero => omega
    | succ j =>
      simp only [gwinListDefaultDraw, List.getElem?_cons_succ] at hc
      have hrow := drawLoop_isRow _ gw _ _ _ c (List.getElem?_mem hc)
      refine ⟨hrow, ?_⟩
      cases c <;> simp [Call.isRow] at hrow
      rfl

/-- C16, an instance: the three-item list at the origin, 100 by 60, font height 10. -/
theorem gwinListDefaultDraw_clears_first_witness :
    gwinListDefaultDraw 4096 10 (sampleList threeItems) =
      [Call.gdispDrawBox 0 0 100 60 Color.Black,
        Call.gdispFillStringBox 3 3 94 10 4108 Color.Black Color.White,
        Call.gdispFillStringBox 3 17 94 10 4140 Color.Black Color.White,
        Call.gdispFillStringBox 3 31 94 10 4172 Color.Black Color.White] ∧
    ((gwinListDefaultDraw 4096 10 (sampleList threeItems))[0]?).bind Call.clearedArea =
      some ((sampleList threeItems).x, (sampleList threeItems).y,
        (sampleList threeItems).width, (sampleList threeItems).height) :=
  ⟨by decide, (gwinListDefaultDraw_clears_first 4096 10 (sampleList threeItems)).2.1⟩

/-- C17: for every fill-rect request, a driver whose descriptor declares
`GDISP_HARDWARE_FILLS` false gets the request done by the generic layer through pixel
writes, and the resulting display is the one a driver declaring it true produces: every
pixel of the rectangle has the colour, in the native encoding, and every other pixel is
as before.  The two drivers convert colours alike. -/
theorem fillRect_emulation_same_pixels (d1 d2 : Driver) (f : Frame) (x y : Int)
    (cx cy : Nat) (color : Nat)
    (h1 : d1.caps.GDISP_HARDWARE_FILLS = false)
    (h2 : d2.caps.GDISP_HARDWARE_FILLS = true)
    (hconv : d1.convert = d2.convert) :
    fillRect d1 f x y cx cy color = fillRect d2 f x y cx cy color ∧
    fillRect d1 f x y cx cy color = d1.emulatedFill f x y cx color cy ∧
    fillRect d2 f x y cx cy color = d2.hardwareFill f x y cx cy color ∧
    (∀ px py : Int, x ≤ px → px < x + cx → y ≤ py → py < y + cy →
      fillRect d1 f x y cx cy color px py = d1.convert color) ∧
    (∀ px py : Int, ¬ (x ≤ px ∧ px < x + cx ∧ y ≤ py ∧ py < y + cy) →
      fillRect d1 f x y cx cy color px py = f px py) := by
  have he : fillRect d1 f x y cx cy color = d1.emulatedFill f x y cx color cy := by
    simp [fillRect, h1]
  have hh : fillRect d2 f x y cx cy color = d2.hardwareFill f x y cx cy color := by
    simp [fillRect, h2]
  refine ⟨?_, he, hh, ?_, ?_⟩
  · rw [he, hh]
    funext px py
    rw [Driver.emulatedFill_apply, hconv]
    rfl
  · intro px py hx1 hx2 hy1 hy2
    rw [he, Driver.emulatedFill_apply, if_pos ⟨hx1, hx2, hy1, hy2⟩]
  · intro px py hout
    rw [he, Driver.emulatedFill_apply, if_neg hout]

/-- C17, an instance: the ILI9325 descriptor, and the same descriptor with the fill
capability switched off; a 2 by 2 rectangle at `(2, 3)` is filled with colour 7 on a
display of zeros. -/
theorem fillRect_emulation_same_pixels_witness :
    (({ caps := { ILI9325 with GDISP_HARDWARE_FILLS := false }, convert := id } :
        Driver).caps.GDISP_HARDWARE_FILLS = false ∧
      ({ caps := ILI9325, convert := id } : Driver).caps.GDISP_HARDWARE_FILLS = true) ∧
    fillRect { caps := { ILI9325 with GDISP_HARDWARE_FILLS := false }, convert := id }
        (fun _ _ => 0) 2 3 2 2 7 =
      fillRect { caps := ILI9325, convert := id } (fun _ _ => 0) 2 3 2 2 7 ∧
    fillRect { caps := { ILI9325 with GDISP_HARDWARE_FILLS := false }, convert := id }
        (fun _ _ => 0) 2 3 2 2 7 3 4 = 7 ∧
    fillRect { caps := { ILI9325 with GDISP_HARDWARE_FILLS := false }, convert := id }
        (fun _ _ => 0) 2 3 2 2 7 4 4 = 0 :=
  ⟨⟨rfl, rfl⟩,
    (fillRect_emulation_same_pixels
      { caps := { ILI9325 with GDISP_HARDWARE_FILLS := false }, convert := id }
      { caps := ILI9325, convert := id } (fun _ _ => 0) 2 3 2 2 7 rfl rfl rfl).1,
    by decide, by decide⟩

/-- C18: a pointer-down changes nothing but the bits of `GLIST_FLG_SELECTED` in the flag
words of the items: the widget fields, the count, the number and order of the items, and
the record address, text pointer, parameter and every other flag bit of each item, the
allocated-text bit `0x0001` among them, are as before the call.  The flag words are
16-bit values, and the divisor `item_height` is not zero. -/
theorem MouseDown_changes_selected_bit_only (F : Nat) (fontHeight : Int)
    (listeners : List GSourceListener) (gw : GListObject) (x y : Int)
    (hh : item_height fontHeight ≠ 0)
    (hflags : ∀ li ∈ gw.list_head, li.flags < 65536) :
    ∃ gw1 calls,
      MouseDown F fontHeight listeners gw x y = some (gw1, calls) ∧
      gw1 = { gw with list_head := gw1.list_head } ∧
      gw1.cnt = gw.cnt ∧
      gw1.list_head.length = gw.list_head.length ∧
      gw1.list_head.map (fun li => (li.addr, li.param, li.text)) =
        gw.list_head.map (fun li => (li.addr, li.param, li.text)) ∧
      ∀ (j : Nat) (li : ListItem), gw.list_head[j]? = some li →
        ∃ li1, gw1.list_head[j]? = some li1 ∧
          li1.addr = li.addr ∧ li1.param = li.param ∧ li1.text = li.text ∧
          (∀ b, (GLIST_FLG_SELECTED F).testBit b = false →
            li1.flags.testBit b = li.flags.testBit b) ∧
          li1.flags &&& LISTITEM_ALLOCEDTEXT = li.flags &&& LISTITEM_ALLOCEDTEXT := by
  have hm := MouseDown_eq F fontHeight listeners gw x y hh
  have hitems : ∀ (j : Nat) (li : ListItem), gw.list_head[j]? = some li →
      ∃ li1, (selectLoop (GLIST_FLG_SELECTED F) (item_id fontHeight gw.y y)
          gw.list_head 0)[j]? = some li1 ∧
        li1.addr = li.addr ∧ li1.param = li.param ∧ li1.text = li.text ∧
        (∀ b, (GLIST_FLG_SELECTED F).testBit b = false →
          li1.flags.testBit b = li.flags.testBit b) ∧
        li1.flags &&& LISTITEM_ALLOCEDTEXT = li.flags &&& LISTITEM_ALLOCEDTEXT := by
    intro j li hj
    have hf := hflags li (List.getElem?_mem hj)
    obtain ⟨h1, h2, h3, h4⟩ :=
      selectItem_frame (GLIST_FLG_SELECTED F) (item_id fontHeight gw.y y)
        ((0 + j) % 65536) li hf
    refine ⟨_, ?_, h1, h2, h3, h4, ?_⟩
    · rw [selectLoop_getElem? _ _ _ _ _ (by norm_num), hj]
      rfl
    · exact land_one_eq_of_testBit_zero _ _ (h4 0 (GLIST_FLG_SELECTED_testBit_zero F))
  refine ⟨_, _, hm, rfl, rfl, selectLoop_length _ _ _ _, ?_, hitems⟩
  apply List.ext_getElem?
  intro j
  simp only [List.getElem?_map]
  cases hj : gw.list_head[j]? with
  | none =>
    have hlen : gw.list_head.length ≤ j := List.getElem?_eq_none_iff.mp hj
    have : (selectLoop (GLIST_FLG_SELECTED F) (item_id fontHeight gw.y y)
        gw.list_head 0)[j]? = none :=
      List.getElem?_eq_none_iff.mpr (by rw [selectLoop_length]; exact hlen)
    rw [this]
  | some li =>
    obtain ⟨li1, h1, h2, h3, h4, _⟩ := hitems j li hj
    rw [h1]
    simp [h2, h3, h4]

/-- C18, an instance: three items with the flag words `0x0001`, `0x4001` and `0x8003`;
a press on row 0 sets bit `0x4000` in the first and clears it in the second; the other
bits, the parameters and the text pointers stay. -/
theorem MouseDown_changes_selected_bit_only_witness :
    (item_height 10 ≠ 0 ∧
      ∀ li ∈ (sampleList mixedFlags).list_head, li.flags < 65536) ∧
    ∃ gw1 calls,
      MouseDown 4096 10 [] (sampleList mixedFlags) 5 5 = some (gw1, calls) ∧
      gw1.list_head =
        [⟨4096, 16385, 5, 256⟩, ⟨4112, 1, 6, 260⟩, ⟨4128, 32771, 7, 264⟩] ∧
      gw1.cnt = 3 := by
  have h1 : item_height 10 ≠ 0 := by decide
  have h2 : ∀ li ∈ (sampleList mixedFlags).list_head, li.flags < 65536 := by decide
  refine ⟨⟨h1, h2⟩, ?_⟩
  obtain ⟨gw1, calls, hm, _, hcnt, _, _, _⟩ :=
    MouseDown_changes_selected_bit_only 4096 10 [] (sampleList mixedFlags) 5 5 h1 h2
  have hm2 : MouseDown 4096 10 [] (sampleList mixedFlags) 5 5 =
      some ({ self := 512, vmt := 64, x := 0, y := 0, width := 100, height := 60,
              visible := true, cnt := 3,
              list_head := [⟨4096, 16385, 5, 256⟩, ⟨4112, 1, 6, 260⟩,
                ⟨4128, 32771, 7, 264⟩] },
            [Call._gwidgetRedraw 512]) := by decide
  rw [hm2] at hm
  simp only [Option.some.injEq, Prod.mk.injEq] at hm
  exact ⟨gw1, calls, by rw [hm2, ← hm.1, ← hm.2], by rw [← hm.1], hcnt.trans (by decide)⟩

/-- C19: for a font line height `0 ≤ h ≤ 65533` and a press with `y ≥ g.y`, both 16-bit
signed coordinates, the 16-bit divisor of `MouseDown` is `h + 2` and is not zero, and the
16-bit row index is the quotient `(y - g.y) / (h + 2)` itself, the floor of the
rational quotient, with no wrap-around; this is the index the loop compares with the
row counter and the index the event carries. -/
theorem MouseDown_index_is_floor (F : Nat) (h : Int) (listeners : List GSourceListener)
    (gw : GListObject) (x y : Int) (h0 : 0 ≤ h) (h1 : h ≤ 65533)
    (hgy : -32768 ≤ gw.y) (hy : y ≤ 32767) (hge : gw.y ≤ y) :
    ((item_height h : Nat) : Int) = h + 2 ∧
    item_height h ≠ 0 ∧
    ((item_id h gw.y y : Nat) : Int) = (y - gw.y) / (h + 2) ∧
    ((item_id h gw.y y : Nat) : Int) = ⌊((y - gw.y : Int) : ℚ) / ((h + 2 : Int) : ℚ)⌋ ∧
    (y - gw.y) / (h + 2) < 65536 ∧
    MouseDown F h listeners gw x y =
      some ({ gw with list_head :=
                (selectLoop (GLIST_FLG_SELECTED F) (Int.toNat ((y - gw.y) / (h + 2)))
                  gw.list_head 0) },
            Call._gwidgetRedraw gw.self ::
              (listeners.filter (fun l => l.hasBuffer)).map
                (fun l => Call.geventSendEvent l.psl
                  (listEvent gw ((y - gw.y) / (h + 2))))) := by
  have hh := item_height_of_range h h0 h1
  have hne : item_height h ≠ 0 := by
    intro h0'
    rw [h0'] at hh
    simp at hh
    omega
  have hid := item_id_of_range h gw.y y h0 h1 hgy hy hge
  have hlt : (y - gw.y) / (h + 2) < 65536 := by
    have := item_id_lt h gw.y y
    omega
  have hfloor : ((item_id h gw.y y : Nat) : Int) =
      ⌊((y - gw.y : Int) : ℚ) / ((h + 2 : Int) : ℚ)⌋ := by
    rw [hid, ← hh, Int.cast_natCast, Rat.floor_intCast_div_natCast]
  refine ⟨hh, hne, hid, hfloor, hlt, ?_⟩
  rw [MouseDown_eq F h listeners gw x y hne]
  have hnat : ((y - gw.y) / (h + 2)).toNat = item_id h gw.y y := by
    rw [← hid]
    simp
  rw [hnat, ← hid]

/-- C19, an instance: font height 10, the widget at `g.y = 20`, a press at `y = 57`;
the divisor is 12 and the row index 3. -/
theorem MouseDown_index_is_floor_witness :
    ((0 : Int) ≤ 10 ∧ (10 : Int) ≤ 65533 ∧
      -32768 ≤ lowerList.y ∧
      (57 : Int) ≤ 32767 ∧ lowerList.y ≤ 57) ∧
    item_height 10 = 12 ∧ item_id 10 20 57 = 3 ∧
    ((item_id 10 lowerList.y 57 : Nat) : Int) =
      ⌊(((57 : Int) - lowerList.y : Int) : ℚ) /
        (((10 : Int) + 2 : Int) : ℚ)⌋ :=
  ⟨⟨by decide, by decide, by decide, by decide, by decide⟩, by decide, by decide,
    (MouseDown_index_is_floor 4096 10 [] lowerList 5 57
      (by decide) (by decide) (by decide) (by decide) (by decide)).2.2.2.1⟩

end UGfx
